import Mathlib

/-!
# Verification of the dabbi daemon core against its specification

This file gives a shallow embedding, in Lean 4, of the parts of the
dabbi repository that the specification's claims are about:

* the network-policy validation (`internal/network`, `ValidateConfig`,
  `validateRule`, `isValidIP`),
* the network-policy applier (`ApplyToVM`, `GetCurrentConfig`),
* the cloud-init template merge (`internal/config/cloudinit.go`,
  `appendToCloudInit`),
* the idle-VM watchdog decision (`internal/watchdog/watchdog.go`,
  `checkVM`),
* the host-header VM request router (`internal/proxy`, `parseHost`,
  the proxy director, wake-on-request),
* the TCP tunnel manager (`internal/tunnel/manager.go`).

Pure Go functions become Lean functions; machine integers become `Nat`
or `Int`; fallible operations return `Except`; the outside world
(hypervisor CLI, filesystem, network listeners) is passed in as an
explicit environment of `Except`-valued results; the per-VM wake flag
becomes a labelled transition system.  Go strings are Lean `String`s,
with the few Go `strings` package functions the code uses re-implemented
over `String.data` so that every definition evaluates by `decide`/`rfl`.
Theorems named `C1_…` … `C10_…` settle the corresponding claims.
-/

namespace Dabbi

/-! ## Go string primitives

Executable models of the `strings` package functions the embedded code
uses: `strings.Split` with a one-character separator, `strings.Contains`
with a one-character needle, `strings.Join`, `strings.TrimSpace`,
`strings.HasPrefix` and `strings.TrimSpace`-based prefix tests.
-/

/-- `strings.Split` with a single-character separator, on char lists:
splitting the empty string yields one empty part, and separators at the
ends yield empty parts, as in Go. -/
def splitChar (sep : Char) : List Char → List (List Char)
  | [] => [[]]
  | c :: rest =>
    match splitChar sep rest with
    | [] => [[]]
    | g :: gs => if c = sep then [] :: g :: gs else (c :: g) :: gs

/-- `strings.Split(s, sep)` for a one-character separator. -/
def goSplit (sep : Char) (s : String) : List String :=
  (splitChar sep s.data).map fun g => ⟨g⟩

/-- `strings.Join(parts, sep)` for a one-character separator. -/
def goJoin (sep : Char) : List String → String
  | [] => ""
  | [s] => s
  | s :: rest => s ++ ⟨[sep]⟩ ++ goJoin sep rest

/-- `strings.Contains(s, needle)` for a one-character needle. -/
def goContainsChar (s : String) (c : Char) : Bool :=
  s.data.contains c

/-- `strings.HasPrefix`. -/
def goHasPrefix (s pre : String) : Bool :=
  pre.data.isPrefixOf s.data

/-- `strings.TrimSpace` (on ASCII whitespace, which is all the daemon
ever feeds it). -/
def goTrimSpace (s : String) : String :=
  ⟨(s.data.dropWhile Char.isWhitespace).reverse.dropWhile Char.isWhitespace |>.reverse⟩

/-- Boolean infix test on lists, by scanning suffixes. -/
def listInfixOf (needle : List Char) : List Char → Bool
  | [] => needle.isEmpty
  | c :: rest => needle.isPrefixOf (c :: rest) || listInfixOf needle rest

/-- `strings.Contains(s, sub)` for a general needle. -/
def goContains (s sub : String) : Bool :=
  listInfixOf sub.data s.data

/-! ## Network policy model

Translated from the `multipass` package types (`NetworkRule`,
`NetworkConfig`; the mode is a Go string) and from
`internal/network` (`isValidIP`, `validateRule`, `ValidateConfig`).
-/

/-- A single network rule: `type` is `"ip"`, `"cidr"` or `"domain"`. -/
structure NetworkRule where
  type : String
  value : String
  comment : String := ""
deriving Repr, DecidableEq

/-- Network restriction configuration for a VM; `mode` is a Go string
(`"none"`, `"allowlist"`, `"blocklist"`, `"isolated"` are the enum values). -/
structure NetworkConfig where
  mode : String
  rules : List NetworkRule := []
deriving Repr, DecidableEq

/-- One octet of a dotted-quad IP, as checked by the loop body of
`isValidIP`: 1–3 characters, all ASCII digits, decimal value at most 255,
and no leading zero unless the octet is exactly `"0"`. -/
def isValidOctet (cs : List Char) : Bool :=
  if cs.length == 0 || cs.length > 3 then false
  else if !(cs.all Char.isDigit) then false
  else
    let val : Nat := cs.foldl (fun v c => v * 10 + (c.toNat - 48)) 0
    if val > 255 then false
    else if cs.length > 1 && cs.head? == some '0' then false
    else true

/-- `isValidIP` from `internal/network`: split on `"."` into exactly four
parts, each a valid octet. -/
def isValidIP (ip : String) : Bool :=
  let parts := splitChar '.' ip.data
  parts.length == 4 && parts.all isValidOctet

/-- `validateRule` from `internal/network`: empty values are rejected;
`ip` values must pass `isValidIP`; `cidr` values must contain `/`;
`domain` values must not contain a space; any other type is rejected. -/
def validateRule (rule : NetworkRule) : Except String Unit :=
  if rule.value = "" then .error "rule value cannot be empty"
  else match rule.type with
  | "ip" =>
    if !isValidIP rule.value then .error ("invalid IP address: " ++ rule.value)
    else .ok ()
  | "cidr" =>
    if !goContainsChar rule.value '/' then .error ("CIDR must contain /: " ++ rule.value)
    else .ok ()
  | "domain" =>
    if goContainsChar rule.value ' ' then .error ("domain cannot contain spaces: " ++ rule.value)
    else .ok ()
  | other => .error ("invalid rule type: " ++ other ++ " (must be ip, cidr, or domain)")

/-- The rule loop of `ValidateConfig`: validate each rule in order,
wrapping the first failure with its 1-based index. -/
def validateRules : Nat → List NetworkRule → Except String Unit
  | _, [] => .ok ()
  | i, r :: rs =>
    match validateRule r with
    | .error e => .error ("rule " ++ toString (i + 1) ++ ": " ++ e)
    | .ok _ => validateRules (i + 1) rs

/-- `ValidateConfig` from `internal/network`: `none`/`isolated` need no
rules and return immediately; `allowlist`/`blocklist` require at least one
rule and then validate every rule; any other mode is invalid. -/
def ValidateConfig (config : NetworkConfig) : Except String Unit :=
  match config.mode with
  | "none" => .ok ()
  | "isolated" => .ok ()
  | "allowlist" =>
    if config.rules.length = 0 then
      .error ("mode " ++ config.mode ++ " requires at least one rule")
    else validateRules 0 config.rules
  | "blocklist" =>
    if config.rules.length = 0 then
      .error ("mode " ++ config.mode ++ " requires at least one rule")
    else validateRules 0 config.rules
  | _ => .error ("invalid network mode: " ++ config.mode)

example : ValidateConfig ⟨"allowlist", [⟨"ip", "1.2.3.4", ""⟩]⟩ = .ok () := rfl
example : isValidIP "256.0.0.1" = false := by decide
example : isValidIP "01.02.03.04" = false := by decide
example : isValidIP "1.2.3" = false := by decide
example : isValidIP "0.0.0.0" = true := by decide
example : ValidateConfig ⟨"allowlist", []⟩ =
    .error "mode allowlist requires at least one rule" := rfl

/-! ## Specification-side characterisation of `isValidIP`

The claim describes a valid IP value as "four dot-separated decimal
octets each in [0,255] with no leading zeros".  We formalise an octet as
the canonical decimal numeral of some `n ≤ 255` (`decRepr`), and a valid
value as four such numerals joined by `'.'`, and prove this equivalent
to the code's `isValidIP`.
-/

/-- Canonical decimal numeral (most significant digit first, no leading
zeros) of a number below 1000. -/
def decRepr (n : Nat) : List Char :=
  if n < 10 then [Nat.digitChar n]
  else if n < 100 then [Nat.digitChar (n / 10), Nat.digitChar (n % 10)]
  else [Nat.digitChar (n / 100), Nat.digitChar (n / 10 % 10), Nat.digitChar (n % 10)]

/-- A decimal octet: the canonical numeral of some value in `[0, 255]`. -/
def OctetL (cs : List Char) : Prop := ∃ n, n ≤ 255 ∧ cs = decRepr n

/-- Specification-side reading of a valid IP string: four dot-separated
decimal octets, each in `[0, 255]`, with no leading zeros. -/
def IsDottedQuad (v : String) : Prop :=
  ∃ a b c d, v.data = a ++ '.' :: (b ++ '.' :: (c ++ '.' :: d)) ∧
    OctetL a ∧ OctetL b ∧ OctetL c ∧ OctetL d

set_option maxRecDepth 4096 in
lemma isValidOctet_decRepr : ∀ n : Fin 256, isValidOctet (decRepr n.val) = true := by decide

lemma digit_char_eq {c : Char} (h : c.isDigit = true) :
    ∃ d, d < 10 ∧ c = Nat.digitChar d ∧ c.toNat = 48 + d := by
  have hb : 48 ≤ c.toNat ∧ c.toNat ≤ 57 := by simpa [Char.isDigit] using h
  refine ⟨c.toNat - 48, by omega, ?_, by omega⟩
  have h1 : Char.ofNat c.toNat = c := Char.ofNat_toNat c
  have hall : ∀ d : Fin 10, Nat.digitChar d.val = Char.ofNat (48 + d.val) := by decide
  have h2 : Nat.digitChar (c.toNat - 48) = Char.ofNat (48 + (c.toNat - 48)) :=
    hall ⟨c.toNat - 48, by omega⟩
  rw [h2]
  have h3 : 48 + (c.toNat - 48) = c.toNat := by omega
  rw [h3, h1]

lemma isValidOctet_true_iff (cs : List Char) : isValidOctet cs = true ↔
    (1 ≤ cs.length ∧ cs.length ≤ 3) ∧ (∀ c ∈ cs, c.isDigit = true) ∧
    cs.foldl (fun v c => v * 10 + (c.toNat - 48)) 0 ≤ 255 ∧
    (1 < cs.length → cs.head? ≠ some '0') := by
  unfold isValidOctet
  split_ifs with h1 h2 h3
  · simp only [Bool.or_eq_true, beq_iff_eq, decide_eq_true_eq] at h1
    simp only [Bool.false_eq_true, false_iff, not_and]
    rintro ⟨hl1, hl3⟩
    omega
  · simp only [Bool.not_eq_eq_eq_not, Bool.not_true, List.all_eq_false] at h2
    simp only [Bool.false_eq_true, false_iff, not_and]
    obtain ⟨c, hc, hcd⟩ := h2
    rintro - hdig
    exact absurd (hdig c hc) (by simp [hcd])
  · simp only [Bool.and_eq_true, decide_eq_true_eq, beq_iff_eq] at h3
    simp only [ite_self, Bool.false_eq_true, false_iff, not_and]
    rintro - - - hz
    exact hz h3.1 h3.2
  · simp only [Bool.or_eq_true, beq_iff_eq, decide_eq_true_eq, not_or] at h1
    simp only [Bool.not_eq_eq_eq_not, Bool.not_true, Bool.not_eq_false] at h2
    rw [List.all_eq_true] at h2
    simp only [Bool.and_eq_true, decide_eq_true_eq, beq_iff_eq, not_and] at h3
    show (if List.foldl (fun v c => v * 10 + (c.toNat - 48)) 0 cs > 255
      then false else true) = true ↔ _
    split_ifs with h4
    · simp only [Bool.false_eq_true, false_iff, not_and]
      rintro - - hval
      omega
    · simp only [true_iff]
      refine ⟨⟨by omega, by omega⟩, fun c hc => h2 c hc, by omega, fun hl => h3 hl⟩

lemma isValidOctet_iff (cs : List Char) : isValidOctet cs = true ↔ OctetL cs := by
  constructor
  · intro h
    rw [isValidOctet_true_iff] at h
    obtain ⟨⟨hlen1, hlen3⟩, hdig, hval, hzero⟩ := h
    match cs with
    | [a] =>
      obtain ⟨da, hda, rfl, hta⟩ := digit_char_eq (hdig a (by simp))
      refine ⟨da, by omega, ?_⟩
      rw [decRepr, if_pos hda]
    | [a, b] =>
      obtain ⟨da, hda, rfl, hta⟩ := digit_char_eq (hdig a (by simp))
      obtain ⟨db, hdb, rfl, htb⟩ := digit_char_eq (hdig b (by simp [List.mem_cons]))
      have hzero2 : Nat.digitChar da ≠ '0' := by
        have := hzero (by simp)
        simpa using this
      have hda1 : 1 ≤ da := by
        by_contra hc
        exact hzero2 (by simp [show da = 0 by omega]; rfl)
      refine ⟨da * 10 + db, by omega, ?_⟩
      rw [decRepr, if_neg (by omega), if_pos (by omega)]
      have e1 : (da * 10 + db) / 10 = da := by omega
      have e2 : (da * 10 + db) % 10 = db := by omega
      rw [e1, e2]
    | [a, b, c] =>
      obtain ⟨da, hda, rfl, hta⟩ := digit_char_eq (hdig a (by simp))
      obtain ⟨db, hdb, rfl, htb⟩ := digit_char_eq (hdig b (by simp [List.mem_cons]))
      obtain ⟨dc, hdc, rfl, htc⟩ := digit_char_eq (hdig c (by simp [List.mem_cons]))
      have hzero2 : Nat.digitChar da ≠ '0' := by
        have := hzero (by simp)
        simpa using this
      have hda1 : 1 ≤ da := by
        by_contra hc
        exact hzero2 (by simp [show da = 0 by omega]; rfl)
      refine ⟨da * 100 + db * 10 + dc, ?_, ?_⟩
      · simp only [List.foldl] at hval
        omega
      · rw [decRepr, if_neg (by omega), if_neg (by omega)]
        have e1 : (da * 100 + db * 10 + dc) / 100 = da := by omega
        have e2 : (da * 100 + db * 10 + dc) / 10 % 10 = db := by omega
        have e3 : (da * 100 + db * 10 + dc) % 10 = dc := by omega
        rw [e1, e2, e3]
  · rintro ⟨n, hn, rfl⟩
    exact isValidOctet_decRepr ⟨n, by omega⟩

/-! ### Split/join facts about `splitChar` -/

lemma splitChar_ne_nil (sep : Char) (l : List Char) : splitChar sep l ≠ [] := by
  cases l with
  | nil => simp [splitChar]
  | cons c rest =>
    unfold splitChar
    cases splitChar sep rest with
    | nil => simp
    | cons g gs =>
      by_cases hc : c = sep <;> simp [hc]

lemma splitChar_exists_cons (sep : Char) (l : List Char) :
    ∃ g gs, splitChar sep l = g :: gs := by
  cases h : splitChar sep l with
  | nil => exact absurd h (splitChar_ne_nil sep l)
  | cons g gs => exact ⟨g, gs, rfl⟩

lemma splitChar_cons_eq (sep c : Char) (rest : List Char) {g : List Char}
    {gs : List (List Char)} (hg : splitChar sep rest = g :: gs) :
    splitChar sep (c :: rest) = if c = sep then [] :: g :: gs else (c :: g) :: gs := by
  unfold splitChar
  rw [hg]

/-- Joining with a one-character separator: the inverse of `splitChar`. -/
def joinChar (sep : Char) : List (List Char) → List Char
  | [] => []
  | [g] => g
  | g :: gs => g ++ sep :: joinChar sep gs

lemma joinChar_splitChar (sep : Char) (l : List Char) :
    joinChar sep (splitChar sep l) = l := by
  induction l with
  | nil => rfl
  | cons c rest ih =>
    obtain ⟨g, gs, hg⟩ := splitChar_exists_cons sep rest
    rw [splitChar_cons_eq sep c rest hg]
    by_cases hc : c = sep
    · rw [if_pos hc]
      have h1 : joinChar sep ([] :: g :: gs) = sep :: joinChar sep (g :: gs) := rfl
      rw [h1, ← hg, ih, hc]
    · rw [if_neg hc]
      cases gs with
      | nil =>
        have h2 := ih
        rw [hg] at h2
        have h3 : joinChar sep [c :: g] = c :: g := rfl
        have h4 : joinChar sep [g] = g := rfl
        rw [h4] at h2
        rw [h3, h2]
      | cons g2 gs2 =>
        have h1 : joinChar sep ((c :: g) :: g2 :: gs2) =
            (c :: g) ++ sep :: joinChar sep (g2 :: gs2) := rfl
        have h2 := ih
        rw [hg] at h2
        have h3 : joinChar sep (g :: g2 :: gs2) =
            g ++ sep :: joinChar sep (g2 :: gs2) := rfl
        rw [h3] at h2
        rw [h1, List.cons_append, h2]

lemma splitChar_no_sep {sep : Char} {l : List Char} (h : sep ∉ l) :
    splitChar sep l = [l] := by
  induction l with
  | nil => rfl
  | cons c rest ih =>
    have hr := ih (fun hm => h (List.mem_cons_of_mem c hm))
    rw [splitChar_cons_eq sep c rest hr]
    rw [if_neg (fun hc => h (by rw [hc]; exact List.mem_cons_self sep rest))]

lemma splitChar_append_sep {sep : Char} {a : List Char} (rest : List Char) (ha : sep ∉ a) :
    splitChar sep (a ++ sep :: rest) = a :: splitChar sep rest := by
  induction a with
  | nil =>
    obtain ⟨g, gs, hg⟩ := splitChar_exists_cons sep rest
    simp only [List.nil_append]
    rw [splitChar_cons_eq sep sep rest hg, if_pos rfl, ← hg]
  | cons x xs ih =>
    have hx : x ≠ sep := fun hc => ha (by rw [hc]; exact List.mem_cons_self sep xs)
    have hxs : sep ∉ xs := fun hm => ha (List.mem_cons_of_mem x hm)
    have hr := ih hxs
    simp only [List.cons_append]
    obtain ⟨g, gs, hg⟩ := splitChar_exists_cons sep (xs ++ sep :: rest)
    rw [splitChar_cons_eq sep x (xs ++ sep :: rest) hg]
    rw [hr] at hg
    obtain ⟨rfl, rfl⟩ : xs = g ∧ splitChar sep rest = gs := by
      injection hg with h1 h2
      exact ⟨h1, h2⟩
    rw [if_neg hx]

lemma dot_not_mem_decRepr {n : Nat} (hn : n ≤ 255) : '.' ∉ decRepr n := by
  have hall : ∀ d : Fin 10, ¬ Nat.digitChar d.val = '.' := by decide
  unfold decRepr
  split_ifs with h1 h2
  · simp only [List.mem_singleton]
    exact fun h => hall ⟨n, h1⟩ h.symm
  · simp only [List.mem_cons, List.mem_singleton, List.not_mem_nil, or_false]
    rintro (h | h)
    · exact hall ⟨n / 10, by omega⟩ h.symm
    · exact hall ⟨n % 10, by omega⟩ h.symm
  · simp only [List.mem_cons, List.mem_singleton, List.not_mem_nil, or_false]
    rintro (h | h | h)
    · exact hall ⟨n / 100, by omega⟩ h.symm
    · exact hall ⟨n / 10 % 10, by omega⟩ h.symm
    · exact hall ⟨n % 10, by omega⟩ h.symm

lemma octl_dot {a : List Char} (h : OctetL a) : '.' ∉ a := by
  obtain ⟨n, hn, rfl⟩ := h
  exact dot_not_mem_decRepr hn

lemma isValidIP_iff (v : String) : isValidIP v = true ↔ IsDottedQuad v := by
  constructor
  · intro h
    unfold isValidIP at h
    simp only [Bool.and_eq_true, beq_iff_eq, List.all_eq_true] at h
    obtain ⟨hlen, hall⟩ := h
    obtain ⟨p1, p2, p3, p4, hp⟩ :
        ∃ p1 p2 p3 p4, splitChar '.' v.data = [p1, p2, p3, p4] := by
      rcases hl : splitChar '.' v.data with _ | ⟨p1, _ | ⟨p2, _ | ⟨p3, _ | ⟨p4, rest⟩⟩⟩⟩ <;>
        rw [hl] at hlen <;> simp_all [List.length_eq_zero]
    rw [hp] at hall
    have h1 : OctetL p1 := (isValidOctet_iff p1).1 (hall p1 (by simp))
    have h2 : OctetL p2 := (isValidOctet_iff p2).1 (hall p2 (by simp))
    have h3 : OctetL p3 := (isValidOctet_iff p3).1 (hall p3 (by simp))
    have h4 : OctetL p4 := (isValidOctet_iff p4).1 (hall p4 (by simp))
    have hjoin := joinChar_splitChar '.' v.data
    rw [hp] at hjoin
    refine ⟨p1, p2, p3, p4, ?_, h1, h2, h3, h4⟩
    rw [← hjoin]
    rfl
  · rintro ⟨a, b, c, d, hv, ha, hb, hc, hd⟩
    unfold isValidIP
    have hsplit : splitChar '.' v.data = [a, b, c, d] := by
      rw [hv, splitChar_append_sep _ (octl_dot ha), splitChar_append_sep _ (octl_dot hb),
        splitChar_append_sep _ (octl_dot hc), splitChar_no_sep (octl_dot hd)]
    rw [hsplit]
    simp [(isValidOctet_iff a).2 ha, (isValidOctet_iff b).2 hb,
      (isValidOctet_iff c).2 hc, (isValidOctet_iff d).2 hd]

lemma goContainsChar_iff (s : String) (c : Char) : goContainsChar s c = true ↔ c ∈ s.data := by
  simp [goContainsChar, List.contains, List.elem_iff]


/-! ## Claim C4: network policy validation -/

/-- C4 (counterexample): the claim says a `domain` rule whose value
contains whitespace is rejected, but the code only rejects a value
containing the space character: the value `"a\tb"` contains whitespace
(a tab), yet an allowlist config holding it passes `ValidateConfig`. -/
theorem C4_counterexample :
    Char.isWhitespace '\t' = true ∧
    ValidateConfig ⟨"allowlist", [⟨"domain", "a\tb", ""⟩]⟩ = .ok () :=
  ⟨rfl, rfl⟩

/-- C4 (amended): `ValidateConfig` rejects an allowlist or blocklist
config with zero rules; in those modes a single `ip` rule is accepted iff
its value is four dot-separated decimal octets in `[0,255]` with no
leading zeros; a `cidr` rule whose value does not contain `/` is
rejected; a `domain` rule whose value contains a space character
(U+0020) is rejected; a rule whose type is not `ip`, `cidr` or `domain`
is rejected; and a mode outside none/allowlist/blocklist/isolated is
rejected. -/
theorem C4_amended :
    (∃ e, ValidateConfig ⟨"allowlist", []⟩ = .error e) ∧
    (∃ e, ValidateConfig ⟨"blocklist", []⟩ = .error e) ∧
    (∀ v c, validateRule ⟨"ip", v, c⟩ = .ok () ↔ IsDottedQuad v) ∧
    (∀ v c, '/' ∉ v.data → ∃ e, validateRule ⟨"cidr", v, c⟩ = .error e) ∧
    (∀ v c, ' ' ∈ v.data → ∃ e, validateRule ⟨"domain", v, c⟩ = .error e) ∧
    (∀ t v c, t ≠ "ip" → t ≠ "cidr" → t ≠ "domain" →
      ∃ e, validateRule ⟨t, v, c⟩ = .error e) ∧
    (∀ mode rules, mode ≠ "none" → mode ≠ "allowlist" → mode ≠ "blocklist" →
      mode ≠ "isolated" → ValidateConfig ⟨mode, rules⟩ =
        .error ("invalid network mode: " ++ mode)) ∧
    (∀ r, ValidateConfig ⟨"allowlist", [r]⟩ = .ok () ↔ validateRule r = .ok ()) ∧
    (∀ r, ValidateConfig ⟨"blocklist", [r]⟩ = .ok () ↔ validateRule r = .ok ()) := by
  refine ⟨⟨_, rfl⟩, ⟨_, rfl⟩, ?_, ?_, ?_, ?_, ?_, ?_, ?_⟩
  · intro v c
    constructor
    · intro h
      by_cases hv : v = ""
      · simp [validateRule, hv] at h
      · simp only [validateRule, hv, if_false, if_neg] at h
        split_ifs at h with hip
        exact (isValidIP_iff v).1 (by simpa using hip)
    · intro h
      have hip : isValidIP v = true := (isValidIP_iff v).2 h
      have hv : v ≠ "" := by
        intro hv
        rw [hv] at hip
        simp [isValidIP, splitChar] at hip
      simp [validateRule, hv, hip]
  · intro v c h
    by_cases hv : v = ""
    · exact ⟨"rule value cannot be empty", by simp [validateRule, hv]⟩
    · have hc : goContainsChar v '/' = false := by
        rw [← Bool.not_eq_true, goContainsChar_iff]
        exact h
      exact ⟨"CIDR must contain /: " ++ v, by simp [validateRule, hv, hc]⟩
  · intro v c h
    have hv : v ≠ "" := by
      intro hv
      rw [hv] at h
      simp at h
    have hc : goContainsChar v ' ' = true := (goContainsChar_iff v ' ').2 h
    exact ⟨"domain cannot contain spaces: " ++ v, by simp [validateRule, hv, hc]⟩
  · intro t v c h1 h2 h3
    by_cases hv : v = ""
    · exact ⟨"rule value cannot be empty", by simp [validateRule, hv]⟩
    · refine ⟨"invalid rule type: " ++ t ++ " (must be ip, cidr, or domain)", ?_⟩
      unfold validateRule
      rw [if_neg hv]
      split
      · simp_all
      · simp_all
      · simp_all
      · rfl
  · intro mode rules h1 h2 h3 h4
    unfold ValidateConfig
    split
    · simp_all
    · simp_all
    · simp_all
    · simp_all
    · rfl
  · intro r
    have h : ValidateConfig ⟨"allowlist", [r]⟩ = validateRules 0 [r] := rfl
    rw [h]
    cases hr : validateRule r with
    | error e => simp [validateRules, hr]
    | ok u => cases u; simp [validateRules, hr]
  · intro r
    have h : ValidateConfig ⟨"blocklist", [r]⟩ = validateRules 0 [r] := rfl
    rw [h]
    cases hr : validateRule r with
    | error e => simp [validateRules, hr]
    | ok u => cases u; simp [validateRules, hr]

/-- C4 (witness): the amended theorem applied at concrete inputs, each
hypothesis discharged by evaluation. -/
theorem C4_amended_witness :
    validateRule ⟨"ip", "1.2.3.4", ""⟩ = .ok () ∧
    (∃ e, validateRule ⟨"cidr", "10008", ""⟩ = .error e) ∧
    (∃ e, validateRule ⟨"domain", "a b", ""⟩ = .error e) ∧
    (∃ e, validateRule ⟨"port", "80", ""⟩ = .error e) ∧
    ValidateConfig ⟨"open", [⟨"ip", "1.2.3.4", ""⟩]⟩ =
      .error ("invalid network mode: " ++ "open") ∧
    ValidateConfig ⟨"allowlist", [⟨"ip", "1.2.3.4", ""⟩]⟩ = .ok () := by
  refine ⟨?_, ?_, ?_, ?_, ?_, ?_⟩
  · exact (C4_amended.2.2.1 "1.2.3.4" "").2
      ⟨['1'], ['2'], ['3'], ['4'], rfl, ⟨1, by omega, rfl⟩, ⟨2, by omega, rfl⟩,
        ⟨3, by omega, rfl⟩, ⟨4, by omega, rfl⟩⟩
  · exact C4_amended.2.2.2.1 "10008" "" (by decide)
  · exact C4_amended.2.2.2.2.1 "a b" "" (by decide)
  · exact C4_amended.2.2.2.2.2.1 "port" "80" "" (by decide) (by decide) (by decide)
  · exact C4_amended.2.2.2.2.2.2.1 "open" [⟨"ip", "1.2.3.4", ""⟩]
      (by decide) (by decide) (by decide) (by decide)
  · exact (C4_amended.2.2.2.2.2.2.2.1 ⟨"ip", "1.2.3.4", ""⟩).2 (by rfl)

/-! ## Idle-VM watchdog (`internal/watchdog/watchdog.go`)

`checkVM` of the watchdog, as a pure decision function.  The activity
sample (`getActivityStats`) and the in-VM checkpoint (`readCheckpoint`)
are inputs: `stats = none` models an `Exec` failure (skip the VM this
tick), `prev = none` models an absent or non-JSON checkpoint, and
`timestamp = none` models an RFC-3339 parse failure of its timestamp.
Times are in whole seconds; the Go float comparison `load > 0.1` is
modelled over `ℚ`.  The returned action is what the code does on that
path: issue a `Stop`, rewrite the checkpoint from the current sample, or
nothing.
-/

/-- The three activity indicators sampled from a VM in one `Exec`. -/
structure ActivityStats where
  rxBytes : Nat
  txBytes : Nat
  ptyIdleSeconds : Int
  loadAverage1Min : ℚ
deriving Repr, DecidableEq

/-- The checkpoint stored inside the VM; `timestamp` is the parse result
of its RFC-3339 field in epoch seconds (`none` = unparseable). -/
structure WatchCheckpoint where
  timestamp : Option Int
  rxBytes : Nat
  txBytes : Nat
deriving Repr, DecidableEq

/-- `loadAverageThreshold = 0.1` from the watchdog constants. -/
def loadAverageThreshold : ℚ := mkRat 1 10

/-- `networkNoiseBytes = 100000` from the watchdog constants. -/
def networkNoiseBytes : Nat := 100000

/-- `absDiff` from the watchdog: absolute difference of unsigned counters. -/
def absDiff (a b : Nat) : Nat := if a > b then a - b else b - a

/-- `hasImmediateActivity`: a PTY idle for less than the timeout, or a
1-minute load average above the threshold. -/
def hasImmediateActivity (timeoutSecs : Nat) (stats : ActivityStats) : Bool :=
  (decide (stats.ptyIdleSeconds ≥ 0) && decide (stats.ptyIdleSeconds < (timeoutSecs : Int))) ||
    decide (stats.loadAverage1Min > loadAverageThreshold)

/-- What one `checkVM` call does to the VM. -/
inductive WatchAction where
  | stop
  | writeCheckpoint (rxBytes txBytes : Nat)
  | skip
deriving Repr, DecidableEq

/-- `checkVM` from the watchdog, with the effectful reads supplied as
arguments and the chosen effect returned as a `WatchAction`.  The Go
`totalDelta` is the sum of two `uint64` values, which wraps modulo
`2 ^ 64`; since each `absDiff` of in-range counters is below `2 ^ 64`,
one reduction of the sum reproduces the unsigned addition exactly. -/
def checkVM : Nat → Int → Option ActivityStats → Option WatchCheckpoint → WatchAction
  | _, _, none, _ => .skip
  | timeoutSecs, now, some s, prev =>
    if hasImmediateActivity timeoutSecs s then .writeCheckpoint s.rxBytes s.txBytes
    else
      match prev with
      | none => .writeCheckpoint s.rxBytes s.txBytes
      | some cp =>
        match cp.timestamp with
        | none => .writeCheckpoint s.rxBytes s.txBytes
        | some ts =>
          if (absDiff s.rxBytes cp.rxBytes + absDiff s.txBytes cp.txBytes) % 2 ^ 64 >
            networkNoiseBytes
          then .writeCheckpoint s.rxBytes s.txBytes
          else if now - ts > (timeoutSecs : Int) then .stop
          else .skip

lemma hasImmediateActivity_iff (t : Nat) (s : ActivityStats) :
    hasImmediateActivity t s = true ↔
      ((0 ≤ s.ptyIdleSeconds ∧ s.ptyIdleSeconds < (t : Int)) ∨
        s.loadAverage1Min > loadAverageThreshold) := by
  simp [hasImmediateActivity, ge_iff_le]

lemma absDiff_eq_natAbs (a b : Nat) : absDiff a b = ((a : Int) - b).natAbs := by
  unfold absDiff
  split_ifs <;> omega

/-- C3 (counterexample): the claim reads the delta condition as the
mathematical sum `|Δrx| + |Δtx| > 100000`, but the Go code adds two
`uint64` values, wrapping modulo `2 ^ 64`.  With VM-controlled counters
giving `Δrx = Δtx = 2 ^ 63` the mathematical sum `2 ^ 64` exceeds
`100000` — so the claim demands a checkpoint rewrite and no `Stop` —
yet `totalDelta` wraps to `0`, the code falls through to the timeout
check, and `checkVM` issues a `Stop`. -/
theorem C3_counterexample :
    ((2 ^ 63 : Int) - 0).natAbs + ((0 : Int) - 2 ^ 63).natAbs > 100000 ∧
    checkVM 600 10000 (some ⟨2 ^ 63, 0, -1, 0⟩) (some ⟨some 100, 0, 2 ^ 63⟩) = .stop := by
  constructor
  · decide
  · decide

/-- C3 (amended): on a tick for a Running VM whose activity sample was
obtained, if the sample shows PTY idle in `[0, timeout)` or load above
`0.1`, or the checkpoint is absent or unparseable, or the network
counters moved by more than `100000` bytes **as computed by the uint64
sum `(|Δrx| + |Δtx|) mod 2 ^ 64`**, the watchdog rewrites the checkpoint
from the current sample and does not stop the VM; and it issues a `Stop`
(without rewriting the checkpoint — the action is `stop`, not
`writeCheckpoint`) iff none of those conditions hold and
`now − checkpoint.timestamp > timeout`. -/
theorem C3_watchdog_stop_decision :
    ∀ (timeout : Nat) (now : Int) (s : ActivityStats) (prev : Option WatchCheckpoint),
      (((0 ≤ s.ptyIdleSeconds ∧ s.ptyIdleSeconds < (timeout : Int)) ∨
          s.loadAverage1Min > mkRat 1 10 ∨
          prev = none ∨
          (∃ cp, prev = some cp ∧ cp.timestamp = none) ∨
          (∃ cp ts, prev = some cp ∧ cp.timestamp = some ts ∧
            (((s.rxBytes : Int) - cp.rxBytes).natAbs +
              ((s.txBytes : Int) - cp.txBytes).natAbs) % 2 ^ 64 > 100000)) →
        checkVM timeout now (some s) prev = .writeCheckpoint s.rxBytes s.txBytes) ∧
      (checkVM timeout now (some s) prev = .stop ↔
        ∃ cp ts, prev = some cp ∧ cp.timestamp = some ts ∧
          ¬(0 ≤ s.ptyIdleSeconds ∧ s.ptyIdleSeconds < (timeout : Int)) ∧
          ¬(s.loadAverage1Min > mkRat 1 10) ∧
          (((s.rxBytes : Int) - cp.rxBytes).natAbs +
            ((s.txBytes : Int) - cp.txBytes).natAbs) % 2 ^ 64 ≤ 100000 ∧
          now - ts > (timeout : Int)) := by
  intro timeout now s prev
  have hthr : loadAverageThreshold = mkRat 1 10 := rfl
  constructor
  · intro hcond
    by_cases him : hasImmediateActivity timeout s = true
    · simp [checkVM, him]
    · have him2 := him
      rw [hasImmediateActivity_iff, hthr] at him2
      push_neg at him2
      rcases hcond with h | h | h | h | h
      · exfalso
        have := him2.1 h.1
        omega
      · exact absurd h (not_lt.mpr him2.2)
      · subst h
        simp [checkVM, him]
      · obtain ⟨cp, rfl, hts⟩ := h
        simp [checkVM, him, hts]
      · obtain ⟨cp, ts, rfl, hts, hdelta⟩ := h
        have hd : (absDiff s.rxBytes cp.rxBytes + absDiff s.txBytes cp.txBytes) % 2 ^ 64 >
            networkNoiseBytes := by
          rw [absDiff_eq_natAbs, absDiff_eq_natAbs]
          exact hdelta
        norm_num at hd
        simp [checkVM, him, hts, hd]
  · constructor
    · intro h
      rcases prev with - | cp
      · by_cases him : hasImmediateActivity timeout s = true <;> simp [checkVM, him] at h
      · by_cases him : hasImmediateActivity timeout s = true
        · simp [checkVM, him] at h
        · rcases hts : cp.timestamp with - | ts
          · simp [checkVM, him, hts] at h
          · by_cases hd : (absDiff s.rxBytes cp.rxBytes + absDiff s.txBytes cp.txBytes) %
                2 ^ 64 > networkNoiseBytes
            · norm_num at hd
              simp [checkVM, him, hts, hd] at h
            · by_cases hexp : now - ts > (timeout : Int)
              · have him2 := him
                rw [hasImmediateActivity_iff, hthr] at him2
                push_neg at him2
                refine ⟨cp, ts, rfl, hts, ?_, ?_, ?_, hexp⟩
                · rintro ⟨hc1, hc2⟩
                  have := him2.1 hc1
                  omega
                · exact not_lt.mpr him2.2
                · rw [absDiff_eq_natAbs, absDiff_eq_natAbs,
                    show networkNoiseBytes = 100000 from rfl] at hd
                  omega
              · norm_num at hd
                simp [checkVM, him, hts, Nat.not_lt.mpr hd, hexp] at h
    · rintro ⟨cp, ts, rfl, hts, hpty, hload, hdelta, hexp⟩
      have him : hasImmediateActivity timeout s = false := by
        rw [← Bool.not_eq_true, hasImmediateActivity_iff, hthr]
        tauto
      have hd : ¬ ((absDiff s.rxBytes cp.rxBytes + absDiff s.txBytes cp.txBytes) % 2 ^ 64 >
          networkNoiseBytes) := by
        rw [absDiff_eq_natAbs, absDiff_eq_natAbs]
        unfold networkNoiseBytes
        omega
      norm_num at hd
      simp [checkVM, him, hts, Nat.not_lt.mpr hd, hexp]

/-- C3 (witness): the theorem applied at concrete samples: an idle VM
with an expired checkpoint is stopped; an active (loaded) VM gets its
checkpoint rewritten. -/
theorem C3_watchdog_witness :
    checkVM 600 10000 (some ⟨500, 600, -1, 0⟩) (some ⟨some 100, 500, 600⟩) =
      .stop ∧
    checkVM 600 10000 (some ⟨500, 600, -1, mkRat 2 10⟩) (some ⟨some 100, 500, 600⟩) =
      .writeCheckpoint 500 600 := by
  constructor
  · exact ((C3_watchdog_stop_decision 600 10000 ⟨500, 600, -1, 0⟩
      (some ⟨some 100, 500, 600⟩)).2).2
      ⟨⟨some 100, 500, 600⟩, 100, rfl, rfl, by decide, by decide, by decide, by decide⟩
  · exact (C3_watchdog_stop_decision 600 10000 ⟨500, 600, -1, mkRat 2 10⟩
      (some ⟨some 100, 500, 600⟩)).1 (Or.inr (Or.inl (by decide)))

/-! ## Network policy applier (`ApplyToVM`, `GetCurrentConfig`)

The applier runs a fixed sequence of fallible steps: local temp-file
staging, then `Transfer`s and `Exec`s against the VM.  The hypervisor
client and the host filesystem are an explicit environment of
`Except`-valued results; the model returns both the applier result and
the list of commands actually issued to the VM, in order.  The iptables
script generator is the Go text template compiled by hand (a constant
template executed on a struct cannot fail, so it is total here); shell
apostrophes and braces inside it are written with `\x27`/`\x7b`/`\x7d`
escapes.
-/

/-- `{{if .Comment}} - {{.Comment}}{{end}}` of the script template. -/
def commentSuffix (c : String) : String := if c = "" then "" else " - " ++ c

/-- The gateway auto-detect block shared by the isolated and allowlist
sections of the script template. -/
def gatewayBlock : String :=
  "# Auto-detect the default gateway network\n" ++
  "GATEWAY_IP=$(ip route | grep default | awk \x27\x7bprint $3\x7d\x27)\n" ++
  "if [ -n \"$GATEWAY_IP\" ]; then\n" ++
  "    GATEWAY_NET=$(echo \"$GATEWAY_IP\" | sed \x27s/\\.[0-9]*$/.0\\/24/\x27)\n" ++
  "    iptables -A OUTPUT -d \"$GATEWAY_NET\" -j ACCEPT\n" ++
  "    iptables -A INPUT -s \"$GATEWAY_NET\" -j ACCEPT\n" ++
  "fi\n"

/-- One `{{range .Rules}}` iteration of the script template; `verb` is
`ACCEPT` (allowlist) or `DROP` (blocklist), `word` the comment word. -/
def renderRule (word verb : String) (r : NetworkRule) : String :=
  match r.type with
  | "ip" => "\n# " ++ word ++ " IP: " ++ r.value ++ commentSuffix r.comment ++
      "\niptables -A DABBI_OUT -d " ++ r.value ++ " -j " ++ verb ++ "\n"
  | "cidr" => "\n# " ++ word ++ " CIDR: " ++ r.value ++ commentSuffix r.comment ++
      "\niptables -A DABBI_OUT -d " ++ r.value ++ " -j " ++ verb ++ "\n"
  | "domain" => "\n# " ++ word ++ " domain: " ++ r.value ++ commentSuffix r.comment ++
      "\n# Resolve and " ++ word ++ " all IPs for this domain\n" ++
      "for ip in $(dig +short " ++ r.value ++
      " A 2>/dev/null | grep -E \x27^[0-9]+\\.[0-9]+\\.[0-9]+\\.[0-9]+$\x27); do\n" ++
      "    iptables -A DABBI_OUT -d \"$ip\" -j " ++ verb ++ " 2>/dev/null || true\ndone\n" ++
      "for ip in $(dig +short " ++ r.value ++ " AAAA 2>/dev/null | grep -v \x27\\.$\x27); do\n" ++
      "    ip6tables -A DABBI_OUT -d \"$ip\" -j " ++ verb ++ " 2>/dev/null || true\ndone\n"
  | _ => "\n"

/-- The mode-dependent middle section of the script template. -/
def renderModeSection (config : NetworkConfig) : String :=
  match config.mode with
  | "isolated" =>
    "\n# ISOLATED MODE - No network access\niptables -P OUTPUT DROP\niptables -P INPUT DROP\n" ++
    "\n# Allow loopback\niptables -A OUTPUT -o lo -j ACCEPT\niptables -A INPUT -i lo -j ACCEPT\n" ++
    "\n# Allow established connections (for multipass communication)\n" ++
    "iptables -A INPUT -m state --state ESTABLISHED,RELATED -j ACCEPT\n" ++
    "iptables -A OUTPUT -m state --state ESTABLISHED,RELATED -j ACCEPT\n" ++
    "\n# Allow multipass bridge network (host-VM communication)\n" ++ gatewayBlock
  | "allowlist" =>
    "\n# ALLOWLIST MODE - Default deny, allow specific hosts\niptables -P OUTPUT DROP\niptables -P INPUT DROP\n" ++
    "\n# Allow loopback\niptables -A OUTPUT -o lo -j ACCEPT\niptables -A INPUT -i lo -j ACCEPT\n" ++
    "\n# Allow established connections\n" ++
    "iptables -A INPUT -m state --state ESTABLISHED,RELATED -j ACCEPT\n" ++
    "iptables -A OUTPUT -m state --state ESTABLISHED,RELATED -j ACCEPT\n" ++
    "\n# Allow multipass bridge network (required for host-VM communication)\n" ++ gatewayBlock ++
    "\n# Allow DNS for domain resolution (to local resolver and common DNS servers)\n" ++
    "iptables -A OUTPUT -p udp --dport 53 -j ACCEPT\niptables -A OUTPUT -p tcp --dport 53 -j ACCEPT\n" ++
    "\n# Jump to custom chain for user rules\niptables -A OUTPUT -j DABBI_OUT\n" ++
    "\n# User-defined allow rules\n" ++
    String.join (config.rules.map (renderRule "Allow" "ACCEPT"))
  | "blocklist" =>
    "\n# BLOCKLIST MODE - Default allow, block specific hosts\niptables -P OUTPUT ACCEPT\niptables -P INPUT ACCEPT\n" ++
    "\n# Jump to custom chain for user rules\niptables -A OUTPUT -j DABBI_OUT\n" ++
    "\n# User-defined block rules\n" ++
    String.join (config.rules.map (renderRule "Block" "DROP"))
  | _ =>
    "\n# NONE MODE - No restrictions (permissive)\niptables -P OUTPUT ACCEPT\niptables -P INPUT ACCEPT\n"

/-- `GenerateIptablesScript`: render the script template for a config
(`nil` defaults to mode `none`).  A constant template executed over a
plain struct cannot fail, so the result is always `ok`. -/
def GenerateIptablesScript (config0 : Option NetworkConfig) : Except String String :=
  let config := config0.getD ⟨"none", []⟩
  .ok ("#!/bin/bash\n# Dabbi Network Rules\n# Mode: " ++ config.mode ++
    "\n# Generated automatically - do not edit manually\n\nset -e\n" ++
    "\n# Flush existing rules\niptables -F OUTPUT 2>/dev/null || true\n" ++
    "iptables -F INPUT 2>/dev/null || true\niptables -F DABBI_OUT 2>/dev/null || true\n" ++
    "\n# Delete and recreate custom chain\niptables -X DABBI_OUT 2>/dev/null || true\n" ++
    "iptables -N DABBI_OUT 2>/dev/null || true\n" ++
    renderModeSection config ++
    "\necho \"Network rules applied successfully (mode: " ++ config.mode ++ ")\"\n")

/-- `GenerateSystemdService`: the constant one-shot unit file. -/
def GenerateSystemdService : String :=
  "[Unit]\nDescription=Dabbi Network Rules\nAfter=network.target\n\n[Service]\n" ++
  "Type=oneshot\nExecStart=/opt/dabbi/network/apply-rules.sh\nRemainAfterExit=yes\n" ++
  "\n[Install]\nWantedBy=multi-user.target\n"

/-- Paths inside the VM, from the applier constants. -/
def vmNetworkDir : String := "/opt/dabbi/network"

def vmConfigFile : String := "/opt/dabbi/network/config.json"

def vmScriptFile : String := "/opt/dabbi/network/apply-rules.sh"

def vmServiceFile : String := "/etc/systemd/system/dabbi-network.service"

/-- A command issued against the VM through the hypervisor client. -/
inductive VMCmd where
  | exec (vmName : String) (args : List String)
  | transfer (src dst : String)
deriving Repr, DecidableEq

/-- One step of the applier: a local filesystem action (no VM command),
or an `Exec`/`Transfer` against the VM. -/
inductive StepAct where
  | localAct (r : Except String Unit)
  | execAct (args : List String)
  | transferAct (src dst : String)

/-- Environment: what the hypervisor client answers for each `Exec` and
`Transfer`. -/
structure MPEnv where
  execRes : String → List String → Except String String
  transferRes : String → String → Except String Unit

/-- Run one step, recording the VM command it issues (if any). -/
def runStep (env : MPEnv) (vmName : String) : StepAct → Except String Unit × List VMCmd
  | .localAct r => (r, [])
  | .execAct args =>
    (match env.execRes vmName args with
      | .error e => .error e
      | .ok _ => .ok (), [.exec vmName args])
  | .transferAct src dst => (env.transferRes src dst, [.transfer src dst])

/-- Run labelled steps in order, stopping at the first failure and
wrapping its error with the step label, as the Go `if err != nil` chain
does with `fmt.Errorf("<label>: %w", err)`. -/
def runSteps (env : MPEnv) (vmName : String) :
    List (String × StepAct) → Except String Unit × List VMCmd
  | [] => (.ok (), [])
  | (label, act) :: rest =>
    match (runStep env vmName act).1 with
    | .error e => (.error (label ++ ": " ++ e), (runStep env vmName act).2)
    | .ok _ =>
      ((runSteps env vmName rest).1,
        (runStep env vmName act).2 ++ (runSteps env vmName rest).2)

/-- Environment of the applier: the hypervisor client plus the host
filesystem (temp dir creation, JSON marshalling, file writes by path). -/
structure ApplyEnv extends MPEnv where
  mkdirTempRes : Except String String
  marshalRes : Except String String
  writeFileRes : String → Except String Unit

/-- The labelled step sequence of `ApplyToVM` after validation and temp
dir creation, in source order. -/
def applySteps (env : ApplyEnv) (tmpDir vmName : String) : List (String × StepAct) :=
  [("failed to marshal config", .localAct (match env.marshalRes with
      | .error e => .error e
      | .ok _ => .ok ())),
   ("failed to write config file", .localAct (env.writeFileRes (tmpDir ++ "/config.json"))),
   ("failed to write script file", .localAct (env.writeFileRes (tmpDir ++ "/apply-rules.sh"))),
   ("failed to write service file", .localAct (env.writeFileRes (tmpDir ++ "/dabbi-network.service"))),
   ("failed to create network dir in VM", .execAct ["sudo", "mkdir", "-p", vmNetworkDir]),
   ("failed to transfer config",
     .transferAct (tmpDir ++ "/config.json") (vmName ++ ":/tmp/dabbi-config.json")),
   ("failed to transfer script",
     .transferAct (tmpDir ++ "/apply-rules.sh") (vmName ++ ":/tmp/dabbi-apply-rules.sh")),
   ("failed to transfer service",
     .transferAct (tmpDir ++ "/dabbi-network.service") (vmName ++ ":/tmp/dabbi-network.service")),
   ("failed to install config", .execAct ["sudo", "mv", "/tmp/dabbi-config.json", vmConfigFile]),
   ("failed to install script", .execAct ["sudo", "mv", "/tmp/dabbi-apply-rules.sh", vmScriptFile]),
   ("failed to install service", .execAct ["sudo", "mv", "/tmp/dabbi-network.service", vmServiceFile]),
   ("failed to make script executable", .execAct ["sudo", "chmod", "+x", vmScriptFile]),
   ("failed to reload systemd", .execAct ["sudo", "systemctl", "daemon-reload"]),
   ("failed to enable service", .execAct ["sudo", "systemctl", "enable", "dabbi-network.service"]),
   ("failed to apply rules", .execAct ["sudo", vmScriptFile])]

/-- `ApplyToVM` from the applier: default a `nil` config to mode `none`,
validate, generate the script, create the temp dir, then run the
installation steps.  Returns the result and the VM commands issued. -/
def ApplyToVM (env : ApplyEnv) (vmName : String) (config0 : Option NetworkConfig) :
    Except String Unit × List VMCmd :=
  let config := config0.getD ⟨"none", []⟩
  match ValidateConfig config with
  | .error e => (.error ("invalid network config: " ++ e), [])
  | .ok _ =>
    match GenerateIptablesScript (some config) with
    | .error e => (.error ("failed to generate iptables script: " ++ e), [])
    | .ok _script =>
      match env.mkdirTempRes with
      | .error e => (.error ("failed to create temp dir: " ++ e), [])
      | .ok tmpDir => runSteps env.toMPEnv vmName (applySteps env tmpDir vmName)

/-- `GetCurrentConfig` from the applier: `cat` the config descriptor in
the VM; an error mentioning `No such file` means no restrictions;
empty output means no restrictions; otherwise parse the JSON (the
unmarshaller is part of the environment). -/
def GetCurrentConfig (env : MPEnv) (vmName : String)
    (unmarshal : String → Except String NetworkConfig) :
    Except String (Option NetworkConfig) :=
  match env.execRes vmName ["cat", vmConfigFile] with
  | .error e =>
    if goContains e "No such file" then .ok none
    else .error ("failed to read config from VM: " ++ e)
  | .ok output =>
    let out := goTrimSpace output
    if out = "" then .ok none
    else
      match unmarshal out with
      | .error e => .error ("failed to parse config: " ++ e)
      | .ok config => .ok (some config)

lemma listInfixOf_iff (n : List Char) (l : List Char) :
    listInfixOf n l = true ↔ n <:+: l := by
  induction l with
  | nil =>
    simp [listInfixOf, List.isEmpty_iff]
  | cons c rest ih =>
    simp only [listInfixOf, Bool.or_eq_true, ih, List.infix_cons_iff,
      List.isPrefixOf_iff_prefix]

lemma goContains_iff (s sub : String) : goContains s sub = true ↔ sub.data <:+: s.data :=
  listInfixOf_iff sub.data s.data

lemma runSteps_error_at (env : MPEnv) (vm : String) (pre : List (String × StepAct))
    (label : String) (act : StepAct) (post : List (String × StepAct)) (e : String)
    (hpre : ∀ s ∈ pre, (runStep env vm s.2).1 = .ok ())
    (hact : (runStep env vm act).1 = .error e) :
    (runSteps env vm (pre ++ (label, act) :: post)).1 = .error (label ++ ": " ++ e) := by
  induction pre with
  | nil =>
    simp only [List.nil_append]
    unfold runSteps
    rw [hact]
  | cons s pre ih =>
    obtain ⟨slabel, sact⟩ := s
    have hs : (runStep env vm sact).1 = .ok () := hpre (slabel, sact) (by simp)
    simp only [List.cons_append]
    unfold runSteps
    rw [hs]
    exact ih (fun x hx => hpre x (List.mem_cons_of_mem _ hx))

/-! ## Claims C7, C9, C10 -/

/-- C7: `ApplyToVM` validates before any side effect — an invalid config
yields an error with no `Transfer` or `Exec` issued — and when an
installation step fails, the returned error wraps the step error with
that step's label. -/
theorem C7_apply_atomic_validation_and_step_errors :
    (∀ (env : ApplyEnv) (vm : String) (c : NetworkConfig) (e : String),
      ValidateConfig c = .error e →
      ApplyToVM env vm (some c) = (.error ("invalid network config: " ++ e), [])) ∧
    (∀ (env : ApplyEnv) (vm : String) (c : Option NetworkConfig) (tmpDir : String)
      (pre : List (String × StepAct)) (label : String) (act : StepAct)
      (post : List (String × StepAct)) (e : String),
      ValidateConfig (c.getD ⟨"none", []⟩) = .ok () →
      env.mkdirTempRes = .ok tmpDir →
      applySteps env tmpDir vm = pre ++ (label, act) :: post →
      (∀ s ∈ pre, (runStep env.toMPEnv vm s.2).1 = .ok ()) →
      (runStep env.toMPEnv vm act).1 = .error e →
      (ApplyToVM env vm c).1 = .error (label ++ ": " ++ e)) := by
  constructor
  · intro env vm c e h
    simp [ApplyToVM, h]
  · intro env vm c tmpDir pre label act post e hval hmk hsplit hpre hact
    unfold ApplyToVM
    simp only [hval, GenerateIptablesScript, hmk, hsplit]
    exact runSteps_error_at env.toMPEnv vm pre label act post e hpre hact

/-- C7 (witness): with an environment whose script transfer fails, the
applier reports `failed to transfer script: disk full`; a config with an
invalid rule aborts with no command issued. -/
theorem C7_apply_witness :
    (ApplyToVM
      { execRes := fun _ _ => .ok ""
        transferRes := fun _ dst =>
          if dst = "alpha:/tmp/dabbi-apply-rules.sh" then .error "disk full" else .ok ()
        mkdirTempRes := .ok "/tmp/dabbi-network-1"
        marshalRes := .ok ""
        writeFileRes := fun _ => .ok () } "alpha"
      (some ⟨"blocklist", [⟨"domain", "example.com", ""⟩]⟩)).1 =
        .error ("failed to transfer script" ++ ": " ++ "disk full") ∧
    ApplyToVM
      { execRes := fun _ _ => .ok ""
        transferRes := fun _ _ => .ok ()
        mkdirTempRes := .ok "/tmp/dabbi-network-1"
        marshalRes := .ok ""
        writeFileRes := fun _ => .ok () } "alpha"
      (some ⟨"allowlist", []⟩) =
        (.error ("invalid network config: " ++ "mode allowlist requires at least one rule"),
          []) := by
  constructor
  · exact C7_apply_atomic_validation_and_step_errors.2
      { execRes := fun _ _ => .ok ""
        transferRes := fun _ dst =>
          if dst = "alpha:/tmp/dabbi-apply-rules.sh" then .error "disk full" else .ok ()
        mkdirTempRes := .ok "/tmp/dabbi-network-1"
        marshalRes := .ok ""
        writeFileRes := fun _ => .ok () } "alpha"
      (some ⟨"blocklist", [⟨"domain", "example.com", ""⟩]⟩) "/tmp/dabbi-network-1"
      [("failed to marshal config", .localAct (.ok ())),
       ("failed to write config file", .localAct (.ok ())),
       ("failed to write script file", .localAct (.ok ())),
       ("failed to write service file", .localAct (.ok ())),
       ("failed to create network dir in VM", .execAct ["sudo", "mkdir", "-p", vmNetworkDir]),
       ("failed to transfer config",
         .transferAct ("/tmp/dabbi-network-1" ++ "/config.json") ("alpha" ++ ":/tmp/dabbi-config.json"))]
      "failed to transfer script"
      (.transferAct ("/tmp/dabbi-network-1" ++ "/apply-rules.sh") ("alpha" ++ ":/tmp/dabbi-apply-rules.sh"))
      [("failed to transfer service",
         .transferAct ("/tmp/dabbi-network-1" ++ "/dabbi-network.service") ("alpha" ++ ":/tmp/dabbi-network.service")),
       ("failed to install config", .execAct ["sudo", "mv", "/tmp/dabbi-config.json", vmConfigFile]),
       ("failed to install script", .execAct ["sudo", "mv", "/tmp/dabbi-apply-rules.sh", vmScriptFile]),
       ("failed to install service", .execAct ["sudo", "mv", "/tmp/dabbi-network.service", vmServiceFile]),
       ("failed to make script executable", .execAct ["sudo", "chmod", "+x", vmScriptFile]),
       ("failed to reload systemd", .execAct ["sudo", "systemctl", "daemon-reload"]),
       ("failed to enable service", .execAct ["sudo", "systemctl", "enable", "dabbi-network.service"]),
       ("failed to apply rules", .execAct ["sudo", vmScriptFile])]
      "disk full" rfl rfl rfl
      (by
        intro s hs
        fin_cases hs <;> rfl)
      rfl
  · exact C7_apply_atomic_validation_and_step_errors.1 _ "alpha"
      ⟨"allowlist", []⟩ "mode allowlist requires at least one rule" rfl

/-- C9: `GetCurrentConfig` reads `/opt/dabbi/network/config.json` in
the VM; a read error whose text contains `No such file` yields no policy
and no error, any other read error is returned wrapped, and a successful
read of parseable JSON yields the parsed policy. -/
theorem C9_get_current_config :
    (∀ (env : MPEnv) (vm : String) (u : String → Except String NetworkConfig) (e : String),
      env.execRes vm ["cat", vmConfigFile] = .error e →
      "No such file".data <:+: e.data →
      GetCurrentConfig env vm u = .ok none) ∧
    (∀ (env : MPEnv) (vm : String) (u : String → Except String NetworkConfig) (e : String),
      env.execRes vm ["cat", vmConfigFile] = .error e →
      ¬ ("No such file".data <:+: e.data) →
      GetCurrentConfig env vm u = .error ("failed to read config from VM: " ++ e)) ∧
    (∀ (env : MPEnv) (vm : String) (u : String → Except String NetworkConfig)
      (out : String) (config : NetworkConfig),
      env.execRes vm ["cat", vmConfigFile] = .ok out →
      goTrimSpace out ≠ "" →
      u (goTrimSpace out) = .ok config →
      GetCurrentConfig env vm u = .ok (some config)) := by
  refine ⟨?_, ?_, ?_⟩
  · intro env vm u e hexec hsub
    have hc : goContains e "No such file" = true := (goContains_iff e "No such file").2 hsub
    simp [GetCurrentConfig, hexec, hc]
  · intro env vm u e hexec hsub
    have hc : goContains e "No such file" = false := by
      rw [← Bool.not_eq_true]
      exact fun hc => hsub ((goContains_iff e "No such file").1 hc)
    simp [GetCurrentConfig, hexec, hc]
  · intro env vm u out config hexec hne hu
    simp [GetCurrentConfig, hexec, hne, hu]

/-- C9 (witness): the theorem applied to a concrete environment for each
of the three outcomes. -/
theorem C9_get_current_config_witness :
    GetCurrentConfig
      { execRes := fun _ _ =>
          .error "cat: /opt/dabbi/network/config.json: No such file or directory"
        transferRes := fun _ _ => .ok () } "alpha" (fun _ => .error "not json") =
      .ok none ∧
    GetCurrentConfig
      { execRes := fun _ _ => .error "ssh: connection refused"
        transferRes := fun _ _ => .ok () } "alpha" (fun _ => .error "not json") =
      .error ("failed to read config from VM: " ++ "ssh: connection refused") ∧
    GetCurrentConfig
      { execRes := fun _ _ => .ok " CONFIGJSON "
        transferRes := fun _ _ => .ok () } "alpha"
      (fun s => if s = "CONFIGJSON" then .ok ⟨"isolated", []⟩ else .error "bad") =
      .ok (some ⟨"isolated", []⟩) := by
  refine ⟨?_, ?_, ?_⟩
  · exact C9_get_current_config.1 _ "alpha" (fun _ => .error "not json")
      "cat: /opt/dabbi/network/config.json: No such file or directory" rfl
      ((goContains_iff _ _).1 rfl)
  · exact C9_get_current_config.2.1 _ "alpha" (fun _ => .error "not json")
      "ssh: connection refused" rfl
      (fun h => by exact absurd ((goContains_iff _ _).2 h) (by decide))
  · exact C9_get_current_config.2.2 _ "alpha" _ " CONFIGJSON " ⟨"isolated", []⟩ rfl
      (by decide) (by rfl)

/-- An applier environment in which every local and VM operation
succeeds. -/
def allOkApplyEnv : ApplyEnv where
  execRes := fun _ _ => .ok ""
  transferRes := fun _ _ => .ok ()
  mkdirTempRes := .ok "/tmp/dabbi-network-test"
  marshalRes := .ok ""
  writeFileRes := fun _ => .ok ()

/-- C10: `ValidateConfig` returns success for mode `none` and mode
`isolated` whatever the rules list holds — including an `ip` rule with
value `999.0.0.1`, which allowlist/blocklist mode would reject — and
`ApplyToVM` then proceeds to install such a config, issuing its full
command sequence (1 mkdir `Exec`, 3 `Transfer`s, 7 more `Exec`s). -/
theorem C10_none_isolated_skip_rule_validation :
    (∀ rules, ValidateConfig ⟨"none", rules⟩ = .ok ()) ∧
    (∀ rules, ValidateConfig ⟨"isolated", rules⟩ = .ok ()) ∧
    isValidIP "999.0.0.1" = false ∧
    (∃ e, validateRule ⟨"ip", "999.0.0.1", ""⟩ = .error e) ∧
    ValidateConfig ⟨"isolated", [⟨"ip", "999.0.0.1", ""⟩]⟩ = .ok () ∧
    (ApplyToVM allOkApplyEnv "alpha" (some ⟨"isolated", [⟨"ip", "999.0.0.1", ""⟩]⟩)).1 =
      .ok () ∧
    (ApplyToVM allOkApplyEnv "alpha" (some ⟨"isolated", [⟨"ip", "999.0.0.1", ""⟩]⟩)).2.length =
      11 :=
  ⟨fun _ => rfl, fun _ => rfl, rfl, ⟨_, rfl⟩, rfl, rfl, rfl⟩

/-! ## TCP tunnel manager (`internal/tunnel/manager.go`)

`Create` and `Delete` over the manager record map.  The map is the Go
`map[int]*Tunnel` as a function `Nat → Option Tunnel`; the `Info` call
and the host `Listen` (which yields the kernel-assigned port) are
environment inputs; listener side effects are recorded as an effect
list.
-/

/-- The VM descriptor fields `Create` inspects. -/
structure VMInfo where
  state : String
  ipv4 : List String
deriving Repr, DecidableEq

/-- An active tunnel record `(host_port, vm_name, vm_port, vm_ip)`. -/
structure Tunnel where
  hostPort : Nat
  vmName : String
  vmPort : Nat
  vmIP : String
deriving Repr, DecidableEq

/-- Listener side effects of the manager. -/
inductive TunnelEffect where
  | listen
  | closeListener (hostPort : Nat)
deriving Repr, DecidableEq

/-- The manager record map. -/
def TunnelMap := Nat → Option Tunnel

/-- `Manager.Create`: require `Info` to succeed, the VM to be `Running`
and to have an IPv4; then bind a listener (kernel-assigned host port from
the environment) and insert the record. -/
def tunnelCreate (tunnels : TunnelMap) (vmName : String) (vmPort : Nat)
    (infoRes : Except String VMInfo) (listenRes : Except String Nat) :
    Except String Tunnel × TunnelMap × List TunnelEffect :=
  match infoRes with
  | .error e => (.error ("failed to get VM info: " ++ e), tunnels, [])
  | .ok info =>
    if info.state ≠ "Running" then
      (.error ("VM \"" ++ vmName ++ "\" is not running (state: " ++ info.state ++ ")"),
        tunnels, [])
    else
      match info.ipv4 with
      | [] => (.error "VM has no IP address", tunnels, [])
      | vmIP :: _ =>
        match listenRes with
        | .error e => (.error ("failed to create listener: " ++ e), tunnels, [.listen])
        | .ok hostPort =>
          let t : Tunnel := ⟨hostPort, vmName, vmPort, vmIP⟩
          (.ok t, fun p => if p = hostPort then some t else tunnels p, [.listen])

/-- `Manager.Delete`: remove the record for the host port and close its
listener; report `tunnel not found` (leaving the map unchanged) when no
record exists. -/
def tunnelDelete (tunnels : TunnelMap) (hostPort : Nat) :
    Except String Unit × TunnelMap × List TunnelEffect :=
  match tunnels hostPort with
  | some t =>
    (.ok (), fun p => if p = hostPort then none else tunnels p, [.closeListener t.hostPort])
  | none => (.error ("tunnel not found: " ++ toString hostPort), tunnels, [])

/-- C8: `Create` fails — leaving the map unchanged and opening no
listener — when `Info` fails, when the VM is not `Running`, or when it
has no IPv4, and those three error messages are pairwise distinct for
all inputs; `Delete` removes an existing record and closes its listener,
errors with `tunnel not found` on an absent port without touching the
map, and hence a second `Delete` of the same port errors and changes
nothing. -/
theorem C8_tunnel_create_delete :
    (∀ (m : TunnelMap) vm port listen e,
      tunnelCreate m vm port (.error e) listen =
        (.error ("failed to get VM info: " ++ e), m, [])) ∧
    (∀ (m : TunnelMap) vm port listen st ips, st ≠ "Running" →
      tunnelCreate m vm port (.ok ⟨st, ips⟩) listen =
        (.error ("VM \"" ++ vm ++ "\" is not running (state: " ++ st ++ ")"), m, [])) ∧
    (∀ (m : TunnelMap) vm port listen,
      tunnelCreate m vm port (.ok ⟨"Running", []⟩) listen =
        (.error "VM has no IP address", m, [])) ∧
    (∀ e vm st,
      ("failed to get VM info: " ++ e) ≠
        ("VM \"" ++ vm ++ "\" is not running (state: " ++ st ++ ")") ∧
      ("failed to get VM info: " ++ e) ≠ "VM has no IP address" ∧
      ("VM \"" ++ vm ++ "\" is not running (state: " ++ st ++ ")") ≠
        "VM has no IP address") ∧
    (∀ (m : TunnelMap) p t, m p = some t →
      tunnelDelete m p =
        (.ok (), fun q => if q = p then none else m q, [.closeListener t.hostPort]) ∧
      (tunnelDelete m p).2.1 p = none) ∧
    (∀ (m : TunnelMap) p, m p = none →
      tunnelDelete m p = (.error ("tunnel not found: " ++ toString p), m, [])) ∧
    (∀ (m : TunnelMap) p t, m p = some t →
      tunnelDelete (tunnelDelete m p).2.1 p =
        (.error ("tunnel not found: " ++ toString p), (tunnelDelete m p).2.1, [])) := by
  refine ⟨?_, ?_, ?_, ?_, ?_, ?_, ?_⟩
  · intro m vm port listen e
    rfl
  · intro m vm port listen st ips h
    simp [tunnelCreate, h]
  · intro m vm port listen
    simp [tunnelCreate]
  · intro e vm st
    refine ⟨?_, ?_, ?_⟩
    · intro h
      have hd := congrArg String.data h
      simp only [String.data_append] at hd
      simp at hd
    · intro h
      have hd := congrArg String.data h
      simp only [String.data_append] at hd
      simp at hd
    · intro h
      have hd := congrArg String.data h
      simp only [String.data_append] at hd
      simp at hd
  · intro m p t h
    refine ⟨by simp [tunnelDelete, h], ?_⟩
    simp [tunnelDelete, h]
  · intro m p h
    simp [tunnelDelete, h]
  · intro m p t h
    have h2 : (tunnelDelete m p).2.1 p = none := by simp [tunnelDelete, h]
    simp [tunnelDelete, h, h2]

/-- C8 (witness): the theorem applied to a concrete map holding one
tunnel on host port 8080 and to each failing `Create` input. -/
theorem C8_tunnel_witness :
    tunnelCreate (fun _ => none) "alpha" 80 (.error "vm not found") (.ok 40000) =
      (.error ("failed to get VM info: " ++ "vm not found"), fun _ => none, []) ∧
    tunnelCreate (fun _ => none) "alpha" 80 (.ok ⟨"Stopped", ["10.0.0.5"]⟩) (.ok 40000) =
      (.error ("VM \"" ++ "alpha" ++ "\" is not running (state: " ++ "Stopped" ++ ")"),
        fun _ => none, []) ∧
    tunnelCreate (fun _ => none) "alpha" 80 (.ok ⟨"Running", []⟩) (.ok 40000) =
      (.error "VM has no IP address", fun _ => none, []) ∧
    (tunnelDelete (fun p => if p = 8080 then some ⟨8080, "alpha", 80, "10.0.0.5"⟩ else none)
      8080).1 = .ok () ∧
    (tunnelDelete
      (tunnelDelete (fun p => if p = 8080 then some ⟨8080, "alpha", 80, "10.0.0.5"⟩ else none)
        8080).2.1 8080).1 = .error ("tunnel not found: " ++ toString 8080) := by
  refine ⟨?_, ?_, ?_, ?_, ?_⟩
  · exact C8_tunnel_create_delete.1 (fun _ => none) "alpha" 80 (.ok 40000) "vm not found"
  · exact C8_tunnel_create_delete.2.1 (fun _ => none) "alpha" 80 (.ok 40000) "Stopped"
      ["10.0.0.5"] (by decide)
  · exact C8_tunnel_create_delete.2.2.1 (fun _ => none) "alpha" 80 (.ok 40000)
  · exact congrArg Prod.fst
      ((C8_tunnel_create_delete.2.2.2.2.1
        (fun p => if p = 8080 then some ⟨8080, "alpha", 80, "10.0.0.5"⟩ else none)
        8080 ⟨8080, "alpha", 80, "10.0.0.5"⟩ rfl).1)
  · exact congrArg Prod.fst
      (C8_tunnel_create_delete.2.2.2.2.2.2
        (fun p => if p = 8080 then some ⟨8080, "alpha", 80, "10.0.0.5"⟩ else none)
        8080 ⟨8080, "alpha", 80, "10.0.0.5"⟩ rfl)

/-! ## Cloud-init template merge (`internal/config/cloudinit.go`)

`appendToCloudInit` walks the base document line by line looking for the
first `runcmd:` block; inside it, the first later top-level key ends the
block and the network section is inserted before that key.  After the
loop the Go code appends the section when the block ran to end-of-file,
and then — because `inserted` is never set by that branch — appends a
fresh `runcmd:` header and the section again.
-/

/-- The exit test of the merge loop: a non-empty line that is not a list
item (`-`), not a comment (`#`), and not indented, i.e. a new top-level
key. -/
def isExitLine (line : String) : Bool :=
  let trimmed := goTrimSpace line
  decide (trimmed.length > 0) && !goHasPrefix trimmed "-" && !goHasPrefix trimmed "#" &&
    !goHasPrefix line " " && !goHasPrefix line "\t"

/-- The loop of `appendToCloudInit` over the lines, threading the
`inRuncmd` and `inserted` flags and returning the built result and the
final flags. -/
def mergeLoop (networkSection : String) :
    List String → Bool → Bool → List String × Bool × Bool
  | [], inRuncmd, inserted => ([], inRuncmd, inserted)
  | line :: rest, inRuncmd, inserted =>
    if goHasPrefix (goTrimSpace line) "runcmd:" then
      match mergeLoop networkSection rest true inserted with
      | (r, ir, ins) => (line :: r, ir, ins)
    else if inRuncmd && isExitLine line then
      if inserted then
        match mergeLoop networkSection rest false inserted with
        | (r, ir, ins) => (line :: r, ir, ins)
      else
        match mergeLoop networkSection rest false true with
        | (r, ir, ins) => (networkSection :: line :: r, ir, ins)
    else
      match mergeLoop networkSection rest inRuncmd inserted with
      | (r, ir, ins) => (line :: r, ir, ins)

/-- `appendToCloudInit`: split the base into lines, run the loop, then
apply the two post-loop appends exactly as the Go code does (note that
the first append does not mark `inserted`). -/
def appendToCloudInit (base networkSection : String) : String :=
  let lines := goSplit '\n' base
  match mergeLoop networkSection lines false false with
  | (result, inRuncmd, inserted) =>
    let result2 := if inRuncmd && !inserted then result ++ [networkSection] else result
    let result3 := if !inserted then result2 ++ ["\nruncmd:", networkSection] else result2
    goJoin '\n' result3

/-- C5: the claim requires the network section to appear exactly once,
inside the first `runcmd` block.  On a base whose first `runcmd` block
extends to end-of-file (no later top-level key — as in the shipped
default cloud-init template, whose `runcmd` is followed only by comment
lines), the end-of-file branch appends the section but never sets
`inserted`, so the no-runcmd branch fires too: the output contains the
section twice plus a stray duplicate `runcmd:` key. -/
theorem C5_cloudinit_double_append :
    appendToCloudInit "runcmd:\n  - echo hi" "NETSEC" =
      "runcmd:\n  - echo hi\nNETSEC\n\nruncmd:\nNETSEC" ∧
    (goSplit '\n' (appendToCloudInit "runcmd:\n  - echo hi" "NETSEC")).count "NETSEC" = 2 ∧
    (goSplit '\n' (appendToCloudInit "runcmd:\n  - echo hi" "NETSEC")).count "runcmd:" = 2 := by
  refine ⟨by decide, by decide, by decide⟩

/-! ## Reverse-proxy request rewriting (`proxyRequest` director)

The director mutates the outgoing request: it overwrites `req.Host`
with the target `ip:port`, preserves WebSocket upgrades, and then sets
the forwarded headers — reading `req.Host` only after it has already
been overwritten.  Headers are a total function with Go's `Get`
semantics (absent ⇒ `""`).
-/

/-- An outgoing proxy request: its `Host` and its header map. -/
structure ProxyRequest where
  host : String
  headers : String → String

/-- `req.Header.Set(k, v)`. -/
def headerSet (h : String → String) (k v : String) : String → String :=
  fun k2 => if k2 = k then v else h k2

/-- The customised `proxy.Director` body, in source order: override
`req.Host` with the target; if an `Upgrade` header is present set
`Connection: Upgrade`; set `X-Forwarded-Host` to (the already
overwritten) `req.Host`; set `X-Forwarded-Proto` to `"https"`. -/
def director (targetHost : String) (req : ProxyRequest) : ProxyRequest :=
  let req1 : ProxyRequest := { req with host := targetHost }
  let req2 : ProxyRequest :=
    if req1.headers "Upgrade" ≠ "" then
      { req1 with headers := headerSet req1.headers "Connection" "Upgrade" }
    else req1
  let req3 : ProxyRequest :=
    { req2 with headers := headerSet req2.headers "X-Forwarded-Host" req2.host }
  { req3 with headers := headerSet req3.headers "X-Forwarded-Proto" "https" }

/-- The target host string `ip:port` built by `proxyRequest`. -/
def targetHostOf (vmIP : String) (port : Nat) : String :=
  vmIP ++ ":" ++ toString port

/-- What the upstream round trip produced. -/
inductive UpstreamResult where
  | ok (status : Nat)
  | transportError
deriving Repr, DecidableEq

/-- The response status the proxy writes: the upstream status, or 502
Bad Gateway from the custom `ErrorHandler` on transport failure. -/
def proxyResponseStatus : UpstreamResult → Nat
  | .ok status => status
  | .transportError => 502

/-- C6 (counterexample): the claim says `X-Forwarded-Host` is set to the
original incoming Host and `X-Forwarded-Proto` to `http` when the daemon
is not terminating TLS; but for a request with Host
`myvm-8080.localhost` proxied to `10.0.0.5:8080`, the director sets
`X-Forwarded-Host` to the target `10.0.0.5:8080` (the Host override
happens before the header is read) and `X-Forwarded-Proto` to `https`
unconditionally. -/
theorem C6_counterexample :
    (director (targetHostOf "10.0.0.5" 8080)
        ⟨"myvm-8080.localhost", fun _ => ""⟩).headers "X-Forwarded-Host" =
      "10.0.0.5:8080" ∧
    "10.0.0.5:8080" ≠ "myvm-8080.localhost" ∧
    (director (targetHostOf "10.0.0.5" 8080)
        ⟨"myvm-8080.localhost", fun _ => ""⟩).headers "X-Forwarded-Proto" = "https" := by
  refine ⟨by decide, by decide, by decide⟩

/-- C6 (amended): when proxying to a Running VM the director sets the
outgoing Host to the target `ip:port`, sets `X-Forwarded-Host` to that
same target (not the original Host), always sets `X-Forwarded-Proto` to
`https` regardless of TLS termination, and the proxy responds 502 Bad
Gateway on upstream transport failure. -/
theorem C6_amended :
    (∀ target req, (director target req).host = target) ∧
    (∀ target req, (director target req).headers "X-Forwarded-Host" = target) ∧
    (∀ target req, (director target req).headers "X-Forwarded-Proto" = "https") ∧
    proxyResponseStatus .transportError = 502 ∧
    (∀ s, proxyResponseStatus (.ok s) = s) := by
  refine ⟨?_, ?_, ?_, rfl, fun _ => rfl⟩
  · intro target req
    by_cases h : req.headers "Upgrade" ≠ "" <;> simp [director, headerSet, h]
  · intro target req
    by_cases h : req.headers "Upgrade" ≠ "" <;> simp [director, headerSet, h]
  · intro target req
    by_cases h : req.headers "Upgrade" ≠ "" <;> simp [director, headerSet, h]

/-! ## Host-header parsing (`internal/proxy`, `parseHost`)

`parseHost` matches the Host header against
`^([a-zA-Z0-9][a-zA-Z0-9-]*)-(\d+)\.(localhost|[a-zA-Z0-9.-]+)(:\d+)?$`
and returns the first capture group and the second converted with
`strconv.Atoi` (whose error is discarded; on 64-bit overflow Atoi
returns the clamped maximum, which the model reproduces).  The regex is
compiled by hand: the engine's leftmost-first semantics make the name
group greedy, so candidates for the dash ending the name group are tried
from the rightmost; after the dash, the digit run, the dot, the domain
and the optional port are forced.
-/

/-- The character class `[a-zA-Z0-9-]` of the name group. -/
def isNameChar (c : Char) : Bool := c.isAlphanum || c = '-'

/-- The character class `[a-zA-Z0-9.-]` of the domain group (the
`localhost` alternative is subsumed by it). -/
def isDomainChar (c : Char) : Bool := c.isAlphanum || c = '.' || c = '-'

/-- The name group `[a-zA-Z0-9][a-zA-Z0-9-]*`. -/
def validName (cs : List Char) : Bool :=
  match cs with
  | [] => false
  | c :: rest => c.isAlphanum && rest.all isNameChar

/-- `strconv.Atoi` on a digit string with the error discarded: the
value, clamped to the maximum 64-bit int on range overflow. -/
def goAtoi (ds : List Char) : Nat :=
  min (ds.foldl (fun n c => n * 10 + (c.toNat - 48)) 0) (2 ^ 63 - 1)

/-- The tail after `<digits>.`: the domain group followed by the
optional `:port` (`:` is outside the domain class, so the split at the
first `:` is forced). -/
def tailOk (cs : List Char) : Bool :=
  let dom := cs.takeWhile (fun c => c ≠ ':')
  let rest := cs.dropWhile (fun c => c ≠ ':')
  !dom.isEmpty && dom.all isDomainChar &&
    (match rest with
     | [] => true
     | _ :: ds => !ds.isEmpty && ds.all Char.isDigit)

/-- After the dash ending the name group: a non-empty digit run, a dot,
then a matching tail; yields the converted port. -/
def afterDash (cs : List Char) : Option Nat :=
  let digits := cs.takeWhile Char.isDigit
  let rest := cs.dropWhile Char.isDigit
  if digits.isEmpty then none
  else
    match rest with
    | '.' :: t => if tailOk t then some (goAtoi digits) else none
    | _ => none

/-- `parseHost`: try each position of a dash ending the (greedy) name
group, longest name first, and return the captures of the first
success. -/
def parseHost (host : String) : Option (String × Nat) :=
  let cs := host.data
  (List.range cs.length).reverse.findSome? fun i =>
    match cs.drop i with
    | '-' :: rest =>
      if validName (cs.take i) then
        match afterDash rest with
        | some port => some (⟨cs.take i⟩, port)
        | none => none
      else none
    | _ => none

/-- The router middleware: requests whose Host does not parse fall
through to the next handler unchanged; parsed requests are handled as VM
requests with the captured name and port. -/
def routerMiddleware {α : Type} (next : String → α)
    (handleVMRequest : String → Nat → String → α) (host : String) : α :=
  match parseHost host with
  | none => next host
  | some (vmName, port) => handleVMRequest vmName port host

example : parseHost "myvm-8080.localhost" = some ("myvm", 8080) := by decide
example : parseHost "myvm-8080.localhost:3000" = some ("myvm", 8080) := by decide
example : parseHost "my-vm-8080.example.com" = some ("my-vm", 8080) := by decide
example : parseHost "VM1-8080.localhost" = some ("VM1", 8080) := by decide
example : parseHost "a-1.localhost" = some ("a", 1) := by decide
example : parseHost "myvm-abc.localhost" = none := by decide
example : parseHost "myvm-8080" = none := by decide
example : parseHost "myvm-8080." = none := by decide
example : parseHost "" = none := by decide
example : parseHost "myvm.8080.localhost" = none := by decide
example : parseHost "myvm-8080-extra.localhost" = none := by decide
example : parseHost ".myvm-8080.localhost" = none := by decide

/-! ### Specification-side reading of the host pattern -/

/-- The name group, spec side: a leading alphanumeric character followed
by alphanumerics and dashes. -/
def ValidNameP (g : List Char) : Prop :=
  ∃ c rest, g = c :: rest ∧ c.isAlphanum = true ∧ ∀ x ∈ rest, isNameChar x = true

/-- The domain group, spec side. -/
def DomainP (d : List Char) : Prop := d ≠ [] ∧ ∀ x ∈ d, isDomainChar x = true

/-- The optional `:port` suffix, spec side. -/
def OptPortP (o : List Char) : Prop :=
  o = [] ∨ ∃ ds, o = ':' :: ds ∧ ds ≠ [] ∧ ∀ x ∈ ds, x.isDigit = true

/-- A Host header matched by the pattern: some decomposition
`name ++ "-" ++ digits ++ "." ++ domain ++ optional-port`. -/
def HostMatch (cs : List Char) : Prop :=
  ∃ g1 g2 dom opt, cs = g1 ++ '-' :: (g2 ++ '.' :: (dom ++ opt)) ∧
    ValidNameP g1 ∧ g2 ≠ [] ∧ (∀ x ∈ g2, x.isDigit = true) ∧ DomainP dom ∧ OptPortP opt

lemma validName_iff (g : List Char) : validName g = true ↔ ValidNameP g := by
  cases g with
  | nil => simp [validName, ValidNameP]
  | cons c rest =>
    simp only [validName, Bool.and_eq_true, List.all_eq_true, ValidNameP]
    constructor
    · rintro ⟨h1, h2⟩
      exact ⟨c, rest, rfl, h1, h2⟩
    · rintro ⟨c2, r2, heq, h1, h2⟩
      injection heq with hc hr
      subst hc
      subst hr
      exact ⟨h1, h2⟩

lemma takeWhile_dropWhile_of_append {p : Char → Bool} {xs ys : List Char}
    (hxs : ∀ x ∈ xs, p x = true) (hys : ∀ y l, ys = y :: l → p y = false) :
    (xs ++ ys).takeWhile p = xs ∧ (xs ++ ys).dropWhile p = ys := by
  induction xs with
  | nil =>
    cases ys with
    | nil => simp
    | cons y l =>
      have hy := hys y l rfl
      simp [List.takeWhile_cons, List.dropWhile_cons, hy]
  | cons x xs ih =>
    have hx : p x = true := hxs x (by simp)
    have ih2 := ih (fun a ha => hxs a (List.mem_cons_of_mem x ha))
    simp [List.takeWhile_cons, List.dropWhile_cons, hx, ih2.1, ih2.2]

lemma head_dropWhile_false {p : Char → Bool} {l : List Char} :
    ∀ y l2, l.dropWhile p = y :: l2 → p y = false := by
  induction l with
  | nil => intro y l2 h; simp at h
  | cons c t ih =>
    intro y l2 h
    rw [List.dropWhile_cons] at h
    by_cases hc : p c = true
    · rw [if_pos hc] at h
      exact ih y l2 h
    · rw [if_neg hc] at h
      injection h with h1 h2
      rw [← h1]
      simpa using hc

lemma mem_takeWhile_sat {p : Char → Bool} {l : List Char} :
    ∀ x ∈ l.takeWhile p, p x = true := by
  induction l with
  | nil => intro x hx; simp at hx
  | cons c t ih =>
    intro x hx
    rw [List.takeWhile_cons] at hx
    by_cases hc : p c = true
    · rw [if_pos hc] at hx
      rcases List.mem_cons.1 hx with rfl | hx2
      · exact hc
      · exact ih x hx2
    · rw [if_neg hc] at hx
      simp at hx

lemma findSome?_eq_some_ex {α β : Type} {l : List α} {f : α → Option β} {v : β}
    (h : l.findSome? f = some v) : ∃ x ∈ l, f x = some v := by
  induction l with
  | nil => simp [List.findSome?] at h
  | cons a as ih =>
    rw [List.findSome?] at h
    cases hf : f a with
    | some b =>
      rw [hf] at h
      have hbv : some b = some v := h
      exact ⟨a, by simp, by rw [hf]; exact hbv⟩
    | none =>
      rw [hf] at h
      have h2 : List.findSome? f as = some v := h
      obtain ⟨x, hx, hfx⟩ := ih h2
      exact ⟨x, List.mem_cons_of_mem a hx, hfx⟩

lemma findSome?_isSome_of_mem {α β : Type} {l : List α} {f : α → Option β} {x : α}
    (hx : x ∈ l) (h : (f x).isSome = true) : (l.findSome? f).isSome = true := by
  induction l with
  | nil => simp at hx
  | cons a as ih =>
    rw [List.findSome?]
    cases hf : f a with
    | some b => simp
    | none =>
      rcases List.mem_cons.1 hx with rfl | hx2
      · rw [hf] at h
        simp at h
      · exact ih hx2

lemma isDomainChar_ne_colon {x : Char} (h : isDomainChar x = true) : x ≠ ':' := by
  intro hx
  rw [hx] at h
  simp [isDomainChar, Char.isAlphanum, Char.isAlpha, Char.isUpper, Char.isLower,
    Char.isDigit] at h

lemma tailOk_iff (t : List Char) :
    tailOk t = true ↔ ∃ dom opt, t = dom ++ opt ∧ DomainP dom ∧ OptPortP opt := by
  constructor
  · intro h
    unfold tailOk at h
    simp only [Bool.and_eq_true, Bool.not_eq_eq_eq_not, Bool.not_false,
      List.all_eq_true] at h
    obtain ⟨⟨hne, hdom⟩, hrest⟩ := h
    refine ⟨t.takeWhile (fun c => decide (c ≠ ':')), t.dropWhile (fun c => decide (c ≠ ':')),
      (List.takeWhile_append_dropWhile _ t).symm, ⟨?_, hdom⟩, ?_⟩
    · intro hnil
      rw [hnil] at hne
      simp at hne
    · cases hd : t.dropWhile (fun c => c ≠ ':') with
      | nil => exact Or.inl rfl
      | cons y ds =>
        rw [hd] at hrest
        simp only [Bool.and_eq_true, Bool.not_eq_eq_eq_not, Bool.not_false,
          List.all_eq_true] at hrest
        have hy : (decide (y ≠ ':')) = false := head_dropWhile_false y ds hd
        have hy2 : y = ':' := by simpa using hy
        refine Or.inr ⟨ds, by rw [hy2], ?_, hrest.2⟩

        intro hnil
        rw [hnil] at hrest
        simp at hrest
  · rintro ⟨dom, opt, rfl, ⟨hdne, hdom⟩, hopt⟩
    have hsplit := @takeWhile_dropWhile_of_append (fun c => decide (c ≠ ':')) dom opt
      (fun x hx => by simpa using isDomainChar_ne_colon (hdom x hx))
      (fun y l hy => by
        rcases hopt with rfl | ⟨ds, hds, hne, hdig⟩
        · simp at hy
        · rw [hds] at hy
          injection hy with h1 h2
          rw [← h1]
          simp)
    unfold tailOk
    rw [hsplit.1, hsplit.2]
    simp only [Bool.and_eq_true, Bool.not_eq_eq_eq_not, Bool.not_false, List.all_eq_true]
    refine ⟨⟨by simpa using hdne, hdom⟩, ?_⟩
    rcases hopt with rfl | ⟨ds, hds, hne, hdig⟩
    · simp
    · rw [hds]
      simp only [Bool.and_eq_true, Bool.not_eq_eq_eq_not, Bool.not_false, List.all_eq_true]
      exact ⟨by simpa using hne, hdig⟩

lemma afterDash_eq_some {g2 t : List Char} (hg2 : g2 ≠ [])
    (hdig : ∀ x ∈ g2, x.isDigit = true) (ht : tailOk t = true) :
    afterDash (g2 ++ '.' :: t) = some (goAtoi g2) := by
  have hsplit := @takeWhile_dropWhile_of_append Char.isDigit g2 ('.' :: t) hdig
    (fun y l hy => by
      injection hy with h1 h2
      rw [← h1]
      rfl)
  have hne : g2.isEmpty = false := by
    cases g2 with
    | nil => exact absurd rfl hg2
    | cons a b => rfl
  unfold afterDash
  rw [hsplit.1, hsplit.2]
  simp [hne, ht]

lemma afterDash_some_ex {cs : List Char} {port : Nat} (h : afterDash cs = some port) :
    ∃ g2 t, cs = g2 ++ '.' :: t ∧ g2 ≠ [] ∧ (∀ x ∈ g2, x.isDigit = true) ∧
      tailOk t = true ∧ port = goAtoi g2 := by
  unfold afterDash at h
  by_cases hie : (cs.takeWhile Char.isDigit).isEmpty = true
  · simp [hie] at h
  · simp only [hie, Bool.false_eq_true, if_false] at h
    cases hd : cs.dropWhile Char.isDigit with
    | nil =>
      rw [hd] at h
      simp at h
    | cons y rest =>
      rw [hd] at h
      by_cases hy : y = '.'
      · subst hy
        simp only at h
        split_ifs at h with htail
        · injection h with hp
          refine ⟨cs.takeWhile Char.isDigit, rest, ?_, ?_, ?_, htail, hp.symm⟩
          · rw [← hd]
            exact (List.takeWhile_append_dropWhile _ cs).symm
          · intro hnil
            rw [hnil] at hie
            simp at hie
          · exact fun x hx => mem_takeWhile_sat x hx
      · have hnone : (match y :: rest with
            | '.' :: t => if tailOk t then some (goAtoi (cs.takeWhile Char.isDigit)) else none
            | _ => none) = none := by
          cases hc : ('.' : Char) == y <;> simp_all [beq_iff_eq]
        rw [hnone] at h
        exact Option.noConfusion h

lemma parseHost_some_decomp {host : String} {name : String} {port : Nat}
    (h : parseHost host = some (name, port)) :
    ∃ g2 dom opt, host.data = name.data ++ '-' :: (g2 ++ '.' :: (dom ++ opt)) ∧
      ValidNameP name.data ∧ g2 ≠ [] ∧ (∀ x ∈ g2, x.isDigit = true) ∧
      DomainP dom ∧ OptPortP opt ∧ port = goAtoi g2 := by
  unfold parseHost at h
  obtain ⟨i, hi, hf⟩ := findSome?_eq_some_ex h
  cases hd : host.data.drop i with
  | nil =>
    rw [hd] at hf
    simp at hf
  | cons y rest =>
    rw [hd] at hf
    by_cases hy : y = '-'
    · subst hy
      simp only at hf
      split_ifs at hf with hvn
      · cases ha : afterDash rest with
        | none =>
          rw [ha] at hf
          simp at hf
        | some p =>
          rw [ha] at hf
          injection hf with hf2
          injection hf2 with hname hport
          obtain ⟨g2, t, hrest, hg2, hdig, htail, hp⟩ := afterDash_some_ex ha
          obtain ⟨dom, opt, ht, hdom, hopt⟩ := (tailOk_iff t).1 htail
          refine ⟨g2, dom, opt, ?_, ?_, hg2, hdig, hdom, hopt, ?_⟩
          · rw [← hname]
            show host.data = host.data.take i ++ '-' :: (g2 ++ '.' :: (dom ++ opt))
            rw [← ht, ← hrest, ← hd]
            exact (List.take_append_drop i host.data).symm
          · rw [← hname]
            exact (validName_iff _).1 hvn
          · exact hport.symm.trans hp
    · have hnone : (match y :: rest with
          | '-' :: rest =>
            if validName (host.data.take i) then
              match afterDash rest with
              | some port => some ((⟨host.data.take i⟩ : String), port)
              | none => none
            else none
          | _ => none) = none := by
        cases hc : ('-' : Char) == y <;> simp_all [beq_iff_eq]
      rw [hnone] at hf
      exact Option.noConfusion hf

lemma hostMatch_parseHost_isSome {host : String} (h : HostMatch host.data) :
    (parseHost host).isSome = true := by
  obtain ⟨g1, g2, dom, opt, hdecomp, hvn, hg2, hdig, hdom, hopt⟩ := h
  unfold parseHost
  apply findSome?_isSome_of_mem (x := g1.length)
  · rw [List.mem_reverse, List.mem_range]
    have hlen := congrArg List.length hdecomp
    simp only [List.length_append, List.length_cons] at hlen
    omega
  · have htake : host.data.take g1.length = g1 := by
      rw [hdecomp]
      exact List.take_left g1 _
    have hdrop : host.data.drop g1.length = '-' :: (g2 ++ '.' :: (dom ++ opt)) := by
      rw [hdecomp]
      exact List.drop_left g1 _
    have ha : afterDash (g2 ++ '.' :: (dom ++ opt)) = some (goAtoi g2) :=
      afterDash_eq_some hg2 hdig ((tailOk_iff _).2 ⟨dom, opt, rfl, hdom, hopt⟩)
    simp only [hdrop, htake, (validName_iff g1).2 hvn, if_true, ha]
    simp [ha]

/-- C1: a Host header yields a parse iff it matches the pattern
`^([a-zA-Z0-9][a-zA-Z0-9-]*)-(\d+)\.(localhost|[a-zA-Z0-9.-]+)(:\d+)?$`;
on success the returned name and port are the first capture group and
the `Atoi` of the second for a decomposition of the host; the greedy
captures on the claim's examples are as stated; the listed non-matching
hosts yield no parse; and the middleware passes unparsed requests
through to the next handler unchanged. -/
theorem C1_host_parsing :
    (∀ host : String, (parseHost host).isSome = true ↔ HostMatch host.data) ∧
    (∀ host name port, parseHost host = some (name, port) →
      ∃ g2 dom opt, host.data = name.data ++ '-' :: (g2 ++ '.' :: (dom ++ opt)) ∧
        ValidNameP name.data ∧ g2 ≠ [] ∧ (∀ x ∈ g2, x.isDigit = true) ∧
        DomainP dom ∧ OptPortP opt ∧ port = goAtoi g2) ∧
    parseHost "my-multi-dash-vm-8080.localhost" = some ("my-multi-dash-vm", 8080) ∧
    parseHost "myvm--8080.localhost" = some ("myvm-", 8080) ∧
    parseHost "-8080.localhost" = none ∧
    parseHost "localhost:8080" = none ∧
    parseHost "8080.localhost" = none ∧
    parseHost "myvm.localhost" = none ∧
    (∀ (α : Type) (next : String → α) (handleVMRequest : String → Nat → String → α) host,
      parseHost host = none → routerMiddleware next handleVMRequest host = next host) := by
  refine ⟨?_, ?_, by decide, by decide, by decide, by decide, by decide, by decide, ?_⟩
  · intro host
    constructor
    · intro h
      obtain ⟨v, hv⟩ := Option.isSome_iff_exists.1 h
      obtain ⟨name, port⟩ := v
      obtain ⟨g2, dom, opt, hdec, hvn, hg2, hdig, hdom, hopt, -⟩ := parseHost_some_decomp hv
      exact ⟨name.data, g2, dom, opt, hdec, hvn, hg2, hdig, hdom, hopt⟩
    · exact hostMatch_parseHost_isSome
  · intro host name port h
    exact parseHost_some_decomp h
  · intro α next handleVMRequest host h
    simp [routerMiddleware, h]

/-- C1 (witness): the theorem applied at `a-1.localhost` (a match) and
`localhost:8080` (a fall-through), each hypothesis evaluated. -/
theorem C1_host_parsing_witness :
    HostMatch ("a-1.localhost" : String).data ∧
    (∃ g2 dom opt,
      ("a-1.localhost" : String).data = ("a" : String).data ++ '-' :: (g2 ++ '.' :: (dom ++ opt)) ∧
      ValidNameP ("a" : String).data ∧ g2 ≠ [] ∧ (∀ x ∈ g2, x.isDigit = true) ∧
      DomainP dom ∧ OptPortP opt ∧ 1 = goAtoi g2) ∧
    routerMiddleware (fun h => "next:" ++ h) (fun _ _ h => "vm:" ++ h) "localhost:8080" =
      "next:" ++ "localhost:8080" := by
  refine ⟨?_, ?_, ?_⟩
  · exact (C1_host_parsing.1 "a-1.localhost").1 (by decide)
  · exact C1_host_parsing.2.1 "a-1.localhost" "a" 1 (by decide)
  · exact C1_host_parsing.2.2.2.2.2.2.2.2 String (fun h => "next:" ++ h)
      (fun _ _ h => "vm:" ++ h) "localhost:8080" (by decide)

/-! ## Wake-on-request (`handleWakeOnRequest`)

The per-VM waking flag lives in a concurrent map; `LoadOrStore` is its
atomic compare-and-set.  We model one VM name's flag and its background
wake tasks as a labelled transition system: a `request` step is one
request executing `handleWakeOnRequest` (the CAS, the possible spawn of
the background task, and the immediate loading-page response, which is
the rendered HTML template naming the VM and port with a 2-second
refresh); a `finish` step is the background task completing — with
`Start` succeeded or failed — and running its deferred delete of the
flag.  Interleavings of steps are arbitrary.
-/

/-- The waking flag and the number of background wake tasks in flight
for one VM name. -/
structure WakeState where
  waking : Bool
  inFlight : Nat
deriving Repr, DecidableEq

/-- `handleWakeOnRequest` as seen by one request: `LoadOrStore` on the
flag; a loser (flag already set) changes nothing, the winner sets the
flag and spawns the background task.  The returned `Bool` is whether the
request spawned the task; either way the caller then serves the loading
page. -/
def handleWakeOnRequest (s : WakeState) : WakeState × Bool :=
  if s.waking then (s, false)
  else ({ waking := true, inFlight := s.inFlight + 1 }, true)

/-- The synchronous response a request receives: always the loading
placeholder naming the VM and the port (there is no error path). -/
inductive WakeResponse where
  | loadingPage (vmName : String) (port : Nat)
deriving Repr, DecidableEq

/-- Observable events of the system. -/
inductive WakeLabel where
  | request (resp : WakeResponse) (spawned : Bool)
  | finish (startOk : Bool)
deriving Repr, DecidableEq

/-- One atomic step for a given VM name and requested port. -/
inductive WakeStep (vmName : String) (port : Nat) :
    WakeState → WakeLabel → WakeState → Prop
  | request (s : WakeState) :
      WakeStep vmName port s
        (.request (.loadingPage vmName port) (handleWakeOnRequest s).2)
        (handleWakeOnRequest s).1
  | finish (s : WakeState) (startOk : Bool) (h : 0 < s.inFlight) :
      WakeStep vmName port s (.finish startOk) ⟨false, s.inFlight - 1⟩

/-- Interleaved executions. -/
inductive WakeTrace (vmName : String) (port : Nat) :
    WakeState → List WakeLabel → WakeState → Prop
  | nil (s : WakeState) : WakeTrace vmName port s [] s
  | cons {s s2 s3 : WakeState} {l : WakeLabel} {ls : List WakeLabel} :
      WakeStep vmName port s l s2 → WakeTrace vmName port s2 ls s3 →
      WakeTrace vmName port s (l :: ls) s3

/-- No request has been made and no task is running. -/
def initialWakeState : WakeState := ⟨false, 0⟩

def isFinishLabel : WakeLabel → Bool
  | .finish _ => true
  | _ => false

def isSpawnLabel : WakeLabel → Bool
  | .request _ spawned => spawned
  | _ => false

def isRequestLabel : WakeLabel → Bool
  | .request _ _ => true
  | _ => false

/-- The reachable states: the flag is set iff exactly one task is in
flight. -/
def WakeInv (s : WakeState) : Prop :=
  (s.waking = true ∧ s.inFlight = 1) ∨ (s.waking = false ∧ s.inFlight = 0)

lemma wakeStep_inv {vm : String} {port : Nat} {s s2 : WakeState} {l : WakeLabel}
    (hinv : WakeInv s) (hstep : WakeStep vm port s l s2) : WakeInv s2 := by
  cases hstep with
  | request =>
    by_cases hw : s.waking = true
    · simp only [handleWakeOnRequest, hw, if_true]
      exact hinv
    · have hw2 : s.waking = false := by simpa using hw
      rcases hinv with ⟨h1, h2⟩ | ⟨h1, h2⟩
      · rw [h1] at hw2
        exact absurd hw2 (by simp)
      · simp only [handleWakeOnRequest, hw2, Bool.false_eq_true, if_false]
        exact Or.inl ⟨rfl, by rw [h2]⟩
  | finish startOk h =>
    rcases hinv with ⟨h1, h2⟩ | ⟨h1, h2⟩
    · exact Or.inr ⟨rfl, by rw [h2]⟩
    · rw [h2] at h
      exact absurd h (by simp)

lemma wakeTrace_inv {vm : String} {port : Nat} {s s2 : WakeState} {ls : List WakeLabel}
    (hinv : WakeInv s) (htrace : WakeTrace vm port s ls s2) : WakeInv s2 := by
  induction htrace with
  | nil s => exact hinv
  | cons hstep htr ih => exact ih (wakeStep_inv hinv hstep)

/-- The flag is set right after any request step. -/
lemma handleWake_waking (s : WakeState) : (handleWakeOnRequest s).1.waking = true := by
  by_cases hw : s.waking = true
  · simp [handleWakeOnRequest, hw]
  · simp only [handleWakeOnRequest]
    rw [if_neg (by simpa using hw)]

lemma wake_spawn_count {vm : String} {port : Nat} {s s2 : WakeState} {ls : List WakeLabel}
    (htrace : WakeTrace vm port s ls s2)
    (hnf : ∀ l ∈ ls, isFinishLabel l = false) :
    ls.countP isSpawnLabel + (if s.waking then 1 else 0) = (if s2.waking then 1 else 0) := by
  induction htrace with
  | nil s => simp
  | cons hstep htr ih =>
    rename_i st st2 st3 l ls2
    have hnf2 : ∀ x ∈ ls2, isFinishLabel x = false :=
      fun x hx => hnf x (List.mem_cons_of_mem l hx)
    cases hstep with
    | request =>
      have ihv := ih hnf2
      rw [List.countP_cons]
      by_cases hw : st.waking = true
      · simp only [handleWakeOnRequest, hw, if_true, isSpawnLabel] at ihv ⊢
        simp at ihv ⊢
        omega
      · have hw2 : st.waking = false := by simpa using hw
        simp only [handleWakeOnRequest, hw2, Bool.false_eq_true, if_false,
          isSpawnLabel] at ihv ⊢
        simp at ihv ⊢
        omega
    | finish startOk h =>
      exact absurd (hnf (.finish startOk) (List.mem_cons_self _ _))
        (by simp [isFinishLabel])

/-- Along a finish-free trace the flag, once set, stays set; and a
non-empty finish-free trace ends with the flag set. -/
lemma wake_waking_after {vm : String} {port : Nat} {s s2 : WakeState} {ls : List WakeLabel}
    (htrace : WakeTrace vm port s ls s2)
    (hnf : ∀ l ∈ ls, isFinishLabel l = false)
    (hstart : s.waking = true ∨ ls ≠ []) : s2.waking = true := by
  induction htrace with
  | nil s =>
    rcases hstart with h | h
    · exact h
    · exact absurd rfl h
  | cons hstep htr ih =>
    rename_i st st2 st3 l ls2
    have hnf2 : ∀ x ∈ ls2, isFinishLabel x = false :=
      fun x hx => hnf x (List.mem_cons_of_mem l hx)
    cases hstep with
    | request => exact ih hnf2 (Or.inl (handleWake_waking st))
    | finish startOk h =>
      exact absurd (hnf (.finish startOk) (List.mem_cons_self _ _))
        (by simp [isFinishLabel])

/-- C2: from the initial state, at most one background wake task (hence
at most one `Start`) is ever in flight; among any burst of requests with
no intervening task completion, exactly one wins the compare-and-set and
spawns the task; every request step is answered with the loading
placeholder naming the VM and port (never an error); a finishing task
deletes the flag whether `Start` succeeded or failed; and a request
spawns the task iff the flag was clear. -/
theorem C2_wake_mutual_exclusion :
    (∀ (vm : String) (port : Nat) (ls : List WakeLabel) (s : WakeState),
      WakeTrace vm port initialWakeState ls s → s.inFlight ≤ 1) ∧
    (∀ (vm : String) (port : Nat) (ls : List WakeLabel) (s : WakeState),
      WakeTrace vm port initialWakeState ls s →
      (∀ l ∈ ls, isFinishLabel l = false) →
      (∃ l ∈ ls, isRequestLabel l = true) →
      ls.countP isSpawnLabel = 1) ∧
    (∀ (vm : String) (port : Nat) (s : WakeState) (l : WakeLabel) (s2 : WakeState),
      WakeStep vm port s l s2 →
      ∀ resp spawned, l = .request resp spawned → resp = .loadingPage vm port) ∧
    (∀ (vm : String) (port : Nat) (s : WakeState) (startOk : Bool) (s2 : WakeState),
      WakeStep vm port s (.finish startOk) s2 → s2.waking = false) ∧
    (∀ s : WakeState, (handleWakeOnRequest s).2 = true ↔ s.waking = false) := by
  refine ⟨?_, ?_, ?_, ?_, ?_⟩
  · intro vm port ls s htrace
    have hinv := wakeTrace_inv (Or.inr ⟨rfl, rfl⟩) htrace
    rcases hinv with ⟨-, h⟩ | ⟨-, h⟩ <;> omega
  · intro vm port ls s htrace hnf hreq
    have hcount := wake_spawn_count htrace hnf
    have hne : ls ≠ [] := by
      rintro rfl
      obtain ⟨l, hl, -⟩ := hreq
      simp at hl
    have hwend := wake_waking_after htrace hnf (Or.inr hne)
    rw [hwend] at hcount
    simp only [initialWakeState, Bool.false_eq_true, if_false, if_true] at hcount
    omega
  · intro vm port s l s2 hstep resp spawned heq
    cases hstep with
    | request =>
      injection heq with h1 h2
      exact h1.symm
    | finish startOk h => exact absurd heq (by simp)
  · intro vm port s startOk s2 hstep
    cases hstep with
    | finish startOk h => rfl
  · intro s
    by_cases hw : s.waking = true
    · simp [handleWakeOnRequest, hw]
    · have hw2 : s.waking = false := by simpa using hw
      simp [handleWakeOnRequest, hw2]

/-- C2 (witness): a concrete two-request burst followed by a failing
task completion: both requests get the placeholder, only the first
spawns, and the completion clears the flag. -/
theorem C2_wake_witness :
    WakeTrace "alpha" 3000 initialWakeState
      [.request (.loadingPage "alpha" 3000) true,
       .request (.loadingPage "alpha" 3000) false] ⟨true, 1⟩ ∧
    (⟨true, 1⟩ : WakeState).inFlight ≤ 1 ∧
    ([(.request (.loadingPage "alpha" 3000) true : WakeLabel),
      .request (.loadingPage "alpha" 3000) false].countP isSpawnLabel = 1) ∧
    (handleWakeOnRequest initialWakeState).2 = true := by
  have htrace : WakeTrace "alpha" 3000 initialWakeState
      [.request (.loadingPage "alpha" 3000) true,
       .request (.loadingPage "alpha" 3000) false] ⟨true, 1⟩ :=
    .cons (.request initialWakeState) (.cons (.request ⟨true, 1⟩) (.nil _))
  refine ⟨htrace, ?_, ?_, ?_⟩
  · exact C2_wake_mutual_exclusion.1 "alpha" 3000 _ _ htrace
  · exact C2_wake_mutual_exclusion.2.1 "alpha" 3000 _ _ htrace
      (by decide) ⟨.request (.loadingPage "alpha" 3000) true, by simp, rfl⟩
  · exact (C2_wake_mutual_exclusion.2.2.2.2 initialWakeState).2 rfl

end Dabbi
